import Mathlib

/-!
# bsky_downloader: embedding of `bsky-video-downloader.js`

A shallow embedding of the two decision procedures of the program,
`filterVideoPosts` (which liked posts carry a video) and
`downloadVideosInteractive` (how each video is fetched and how the run is tallied),
followed by the properties proved about them.

Modelling conventions.

* A feed item is a record whose fields are either absent (`none`, standing for both
  `undefined` and `null`, which the program never tells apart) or hold a value of the
  type the Bluesky schema gives them. Reading a property of an absent object, or
  calling `split` on an absent string, raises `JsError.typeError`.
* Strings are Lean strings; the JavaScript string methods the program uses are
  defined on their character lists.
* Console output and the progress bars have no effect on any decision and are left out,
  except for the count of `overallBar.tick()` calls.
* Everything the program asks of the outside world while it handles one item (the clock,
  the two external tools, the HTTP requests, the write stream) is answered by an
  `ItemWorld` record, so that a statement quantified over `ItemWorld`s covers every
  outcome.
-/

namespace BskyDownloader

/-! ## JavaScript string methods -/

/-- Whether `needle` occurs in `hay` as a contiguous block: the search behind
`String.prototype.includes`. -/
def includesChars (needle : List Char) : List Char → Bool
  | [] => needle.isPrefixOf []
  | c :: cs => needle.isPrefixOf (c :: cs) || includesChars needle cs

/-- The method `s.includes(sub)`. -/
def strIncludes (s sub : String) : Bool := includesChars sub.data s.data

/-- The method `s.startsWith(pre)`. -/
def strStartsWith (s pre : String) : Bool := pre.data.isPrefixOf s.data

/-- The method `s.endsWith(suf)`. -/
def strEndsWith (s suf : String) : Bool := suf.data.isSuffixOf s.data

/-- The pieces of a character list between occurrences of `sep`; never empty. -/
def splitChars (sep : Char) : List Char → List (List Char)
  | [] => [[]]
  | c :: cs =>
    match splitChars sep cs with
    | [] => if c = sep then [[], []] else [[c]]
    | w :: ws => if c = sep then [] :: w :: ws else (c :: w) :: ws

/-- The method `s.split(sep)` for a one-character separator. -/
def strSplit (s : String) (sep : Char) : List String :=
  (splitChars sep s.data).map String.mk

/-- The expression `x.$type.split('#')[0]` for a string `$type`. -/
def cutType (t : String) : String := (strSplit t '#').headD ""

/-- The expression `post.uri.split('/').pop()` for a string `uri`. -/
def lastSegment (uri : String) : String := (strSplit uri '/').getLastD ""

/-- JavaScript truthiness of a value that is absent or a string. -/
def truthyStr : Option String → Bool
  | some s => s ≠ ""
  | none => false

/-- JavaScript truthiness of a value that is absent or a boolean. -/
def truthyFlag : Option Bool → Bool
  | some b => b
  | none => false

/-! ## Data model -/

/-- The exception raised by a property read or method call on `undefined`. -/
inductive JsError where
  | typeError
  deriving DecidableEq, Repr

/-- The object `embed.external`. -/
structure External where
  isVideo : Option Bool
  url : Option String
  deriving DecidableEq, Repr

/-- The object `embed.video`. -/
structure VideoBlob where
  url : Option String
  deriving DecidableEq, Repr

/-- The object `post.embed`; `media` is again an embed. The field `type` is `$type`. -/
inductive Embed where
  | mk (type : Option String) (external : Option External) (playlist : Option String)
      (video : Option VideoBlob) (media : Option Embed)

namespace Embed

/-- Field `$type`. -/
def type : Embed → Option String
  | mk t _ _ _ _ => t

/-- Field `external`. -/
def external : Embed → Option External
  | mk _ x _ _ _ => x

/-- Field `playlist`. -/
def playlist : Embed → Option String
  | mk _ _ p _ _ => p

/-- Field `video`. -/
def video : Embed → Option VideoBlob
  | mk _ _ _ v _ => v

/-- Field `media`. -/
def media : Embed → Option Embed
  | mk _ _ _ _ m => m

end Embed

/-- The object `item.post`. -/
structure Post where
  uri : Option String
  embed : Option Embed

/-- One entry of the liked-posts feed. -/
structure FeedItem where
  post : Option Post

/-! ## filterVideoPosts (source lines 137-201) -/

/-- The test on an external object, lines 163-169 and again 182-188:
`x && (x.isVideo || (x.url && (x.url.includes('youtube.com') || ... || x.url.endsWith('.mp4'))))`. -/
def externalIsVideo (ext : Option External) : Bool :=
  match ext with
  | none => false
  | some x =>
    truthyFlag x.isVideo ||
      (match x.url with
       | none => false
       | some url =>
         truthyStr (some url) &&
           (strIncludes url "youtube.com" || strIncludes url "youtu.be" ||
            strIncludes url "vimeo.com" || strEndsWith url ".mp4"))

/-- The loop body of `filterVideoPosts`, lines 151-193: whether `videoPosts.push(item)` runs. -/
def isVideoPost (item : FeedItem) : Except JsError Bool :=
  match item.post with
  | none => .ok false
  | some post =>
    match post.embed with
    | none => .ok false
    | some embed =>
      match embed.type with
      | none => .error .typeError
      | some t =>
        let embedType := cutType t
        if embedType = "app.bsky.embed.video" then .ok true
        else if embedType = "app.bsky.embed.external" then .ok (externalIsVideo embed.external)
        else if embedType = "app.bsky.embed.recordWithMedia" then
          match embed.media with
          | none => .ok false
          | some media =>
            match media.type with
            | none => .error .typeError
            | some mt =>
              let mediaType := cutType mt
              if mediaType = "app.bsky.embed.video" then .ok true
              else if mediaType = "app.bsky.embed.external" && externalIsVideo media.external
              then .ok true
              else .ok false
        else .ok false

/-- The `for` loop of `filterVideoPosts` with `videoPosts` as accumulator. -/
def filterLoop (videoPosts : List FeedItem) : List FeedItem → Except JsError (List FeedItem)
  | [] => .ok videoPosts
  | item :: rest =>
    match isVideoPost item with
    | .error e => .error e
    | .ok true => filterLoop (videoPosts ++ [item]) rest
    | .ok false => filterLoop videoPosts rest

/-- The function `filterVideoPosts(likedPosts)`. -/
def filterVideoPosts (likedPosts : List FeedItem) : Except JsError (List FeedItem) :=
  filterLoop [] likedPosts

/-! ## downloadVideosInteractive (source lines 224-627) -/

/-- What one invocation of an external tool (`execPromise(...)`) does: whether the promise
resolves, and whether a file is at the requested output path afterwards. -/
structure ExecResult where
  resolves : Bool
  leavesOutput : Bool
  deriving DecidableEq, Repr

/-- What happens to `fs.createWriteStream(outputPath)` fed by the response stream:
it finishes, or it emits `error` before or after the file came into being. -/
inductive WriteResult where
  | finish
  | errorNoFile
  | errorPartial
  deriving DecidableEq, Repr

/-- The answers of the outside world while one item is handled. Each of them is asked for at
most once per item. -/
structure ItemWorld where
  /-- Value of `new Date().getTime()`. -/
  timestamp : Nat
  /-- Behaviour of `yt-dlp -o outputPath videoUrl`. -/
  ytDlp : ExecResult
  /-- Behaviour of `ffmpeg ... -i videoUrl -c copy outputPath`. -/
  ffmpeg : ExecResult
  /-- Whether the `HEAD` request resolves (axios rejects on a non-2xx status). -/
  headOk : Bool
  /-- Whether the `GET` request resolves. -/
  getOk : Bool
  /-- Behaviour of the write stream. -/
  write : WriteResult
  deriving DecidableEq, Repr

/-- The calls to the outside world that fetch or write video data, in the order made. -/
inductive Event where
  | ytDlp (url outputPath : String)
  | ffmpeg (url outputPath : String)
  | httpHead (url : String)
  | httpGet (url : String)
  | createWriteStream (outputPath : String)
  deriving DecidableEq, Repr

/-- The mutable state of the item loop. `log` records the calls made, `files` the names
that came into being in the download directory during the run, and `outputs` (a ghost
field) the output path of every attempt the program counted as downloaded. -/
structure St where
  downloadedCount : Nat
  skippedCount : Nat
  failedCount : Nat
  ticks : Nat
  log : List Event
  files : List String
  outputs : List String
  deriving DecidableEq, Repr

/-- The state at line 254-256 before the first item. -/
def St.init : St :=
  { downloadedCount := 0, skippedCount := 0, failedCount := 0, ticks := 0,
    log := [], files := [], outputs := [] }

/-- The file name in `${postId}_${timestamp}.mp4`; paths are kept relative to `downloadDir`. -/
def outputName (postId : String) (timestamp : Nat) : String :=
  postId ++ "_" ++ toString timestamp ++ ".mp4"

/-- Lines 266-268: `existingFiles.some(file => file.startsWith(postId + '_') &&
file.endsWith('.mp4'))`. -/
def alreadyDownloaded (existingFiles : List String) (postId : String) : Bool :=
  existingFiles.any (fun file => strStartsWith file (postId ++ "_") && strEndsWith file ".mp4")

/-- Statements `skippedCount++; overallBar.tick()`. -/
def St.countSkipped (st : St) : St :=
  { st with skippedCount := st.skippedCount + 1, ticks := st.ticks + 1 }

/-- Statements `failedCount++; overallBar.tick()`. -/
def St.countFailed (st : St) : St :=
  { st with failedCount := st.failedCount + 1, ticks := st.ticks + 1 }

/-- Statements `downloadedCount++; overallBar.tick()` after a download to `outputPath`. -/
def St.countDownloaded (st : St) (outputPath : String) : St :=
  { st with downloadedCount := st.downloadedCount + 1, ticks := st.ticks + 1,
            outputs := st.outputs ++ [outputPath] }

/-- One `await execPromise(...)` writing to `outputPath`: the call is logged and the file
is there afterwards if the tool left one. -/
def St.exec (st : St) (ev : Event) (r : ExecResult) (outputPath : String) : St :=
  { st with log := st.log ++ [ev],
            files := if r.leavesOutput then st.files ++ [outputPath] else st.files }

/-- Lines 298-341 and again 361-404: the branch taken for a YouTube URL; it always ends in
`continue`. -/
def youtubeBranch (hasYtDlp : Bool) (w : ItemWorld) (postId videoUrl : String) (st : St) : St :=
  if hasYtDlp then
    let outputPath := outputName postId w.timestamp
    let st1 := st.exec (.ytDlp videoUrl outputPath) w.ytDlp outputPath
    if w.ytDlp.resolves then st1.countDownloaded outputPath
    else st1.countFailed
  else st.countFailed

/-- How the URL extraction of lines 278-408 ends. -/
inductive Extracted where
  /-- A `TypeError` was raised; control is in the outer `catch` of line 604. -/
  | threw
  /-- The YouTube branch handled the item and reached `continue`. -/
  | handled (st : St)
  /-- Control reached line 410 with this `videoUrl` (`none` for `undefined`). -/
  | url (videoUrl : Option String)
  deriving DecidableEq, Repr

/-- Lines 286-290 and again 349-353: the URL of a video embed, playlist first. -/
def videoUrlOf (e : Embed) : Option String :=
  if truthyStr e.playlist then e.playlist
  else
    match e.video with
    | none => none
    | some v => if truthyStr v.url then v.url else none

/-- Lines 292-343 and again 355-406: the URL of an external embed, YouTube handled at once. -/
def extractExternal (hasYtDlp : Bool) (w : ItemWorld) (postId : String) (e : Embed)
    (st : St) : Extracted :=
  match e.external with
  | none => .url none
  | some x =>
    match x.url with
    | none => .url none
    | some videoUrl =>
      if truthyStr (some videoUrl) then
        if strIncludes videoUrl "youtube.com" || strIncludes videoUrl "youtu.be" then
          .handled (youtubeBranch hasYtDlp w postId videoUrl st)
        else .url (some videoUrl)
      else .url none

/-- Lines 278-408: the URL extraction by embed type. No statement before a `TypeError`
changes the state. -/
def extractUrl (hasYtDlp : Bool) (w : ItemWorld) (postId : String) (post : Post)
    (st : St) : Extracted :=
  match post.embed with
  | none => .threw
  | some embed =>
    match embed.type with
    | none => .threw
    | some t =>
      let embedType := cutType t
      if embedType = "app.bsky.embed.video" then .url (videoUrlOf embed)
      else if embedType = "app.bsky.embed.external" then
        extractExternal hasYtDlp w postId embed st
      else if embedType = "app.bsky.embed.recordWithMedia" then
        match embed.media with
        | none => .threw
        | some media =>
          match media.type with
          | none => .threw
          | some mt =>
            let mediaType := cutType mt
            if mediaType = "app.bsky.embed.video" then .url (videoUrlOf media)
            else if mediaType = "app.bsky.embed.external" then
              extractExternal hasYtDlp w postId media st
            else .url none
      else .url none

/-- Line 422: `videoUrl.includes('.m3u8') || videoUrl.includes('playlist')`. -/
def isHls (videoUrl : String) : Bool :=
  strIncludes videoUrl ".m3u8" || strIncludes videoUrl "playlist"

/-- Lines 425-539: the HLS branch, up to and including `overallBar.tick(); continue`. -/
def downloadHls (hasFfmpeg hasYtDlp : Bool) (w : ItemWorld) (videoUrl outputPath : String)
    (st : St) : St :=
  if hasFfmpeg then
    let st1 := st.exec (.ffmpeg videoUrl outputPath) w.ffmpeg outputPath
    if w.ffmpeg.resolves then st1.countDownloaded outputPath
    else if hasYtDlp then
      let st2 := st1.exec (.ytDlp videoUrl outputPath) w.ytDlp outputPath
      if w.ytDlp.resolves then st2.countDownloaded outputPath
      else st2.countFailed
    else st1.countFailed
  else if hasYtDlp then
    let st1 := st.exec (.ytDlp videoUrl outputPath) w.ytDlp outputPath
    if w.ytDlp.resolves then st1.countDownloaded outputPath
    else st1.countFailed
  else st.countFailed

/-- One request or stream opening that writes nothing by itself: the call is logged. -/
def St.call (st : St) (ev : Event) : St :=
  { st with log := st.log ++ [ev] }

/-- Statement `fs.createWriteStream(outputPath)` fed by the response: the call is logged
and the file is there afterwards unless the stream failed before creating it. -/
def St.writeStream (st : St) (r : WriteResult) (outputPath : String) : St :=
  { st with log := st.log ++ [Event.createWriteStream outputPath],
            files := if r = WriteResult.errorNoFile then st.files else st.files ++ [outputPath] }

/-- Lines 545-603: the direct download. The write stream is opened only after both requests
resolved; every rejection lands in the `catch` of line 598. A stream that never settles is
outside the model. -/
def downloadDirect (w : ItemWorld) (videoUrl outputPath : String) (st : St) : St :=
  let st1 := st.call (.httpHead videoUrl)
  if w.headOk then
    let st2 := st1.call (.httpGet videoUrl)
    if w.getOk then
      let st3 := st2.writeStream w.write outputPath
      if w.write = WriteResult.finish then st3.countDownloaded outputPath
      else st3.countFailed
    else st2.countFailed
  else st1.countFailed

/-- Lines 277-608: the `try` block of one item together with the outer `catch`. -/
def tryItem (hasFfmpeg hasYtDlp : Bool) (w : ItemWorld) (postId : String) (post : Post)
    (st : St) : St :=
  match extractUrl hasYtDlp w postId post st with
  | .threw => st.countFailed
  | .handled st1 => st1
  | .url none => st.countFailed
  | .url (some videoUrl) =>
    if truthyStr (some videoUrl) then
      let outputPath := outputName postId w.timestamp
      if isHls videoUrl then downloadHls hasFfmpeg hasYtDlp w videoUrl outputPath st
      else downloadDirect w videoUrl outputPath st
    else st.countFailed

/-- Lines 259-608: one iteration of the item loop. The reads of `item.post` and
`post.uri` stand before the `try`, so their `TypeError` leaves the function. -/
def processItem (hasFfmpeg hasYtDlp : Bool) (existingFiles : List String) (item : FeedItem)
    (w : ItemWorld) (st : St) : Except JsError St :=
  match item.post with
  | none => .error .typeError
  | some post =>
    match post.uri with
    | none => .error .typeError
    | some uri =>
      let postId := lastSegment uri
      if alreadyDownloaded existingFiles postId then .ok st.countSkipped
      else .ok (tryItem hasFfmpeg hasYtDlp w postId post st)

/-- Lines 258-609: the item loop over the posts, each paired with the answers of the
outside world during its iteration. -/
def downloadLoop (hasFfmpeg hasYtDlp : Bool) (existingFiles : List String) :
    List (FeedItem × ItemWorld) → St → Except JsError St
  | [], st => .ok st
  | (item, w) :: rest, st =>
    match processItem hasFfmpeg hasYtDlp existingFiles item w st with
    | .error e => .error e
    | .ok st1 => downloadLoop hasFfmpeg hasYtDlp existingFiles rest st1

/-- The function `downloadVideosInteractive(videoPosts)`. `hasFfmpeg` and `hasYtDlp` are the
results of the two probes, `proceed` says whether the operator answered `y` or `yes` to the
question asked when both tools are missing, `existingFiles` is the directory listing of line
244. The result is `none` when the run is cancelled before the loop, else the state at the
summary. -/
def downloadVideosInteractive (hasFfmpeg hasYtDlp proceed : Bool) (existingFiles : List String)
    (videoPosts : List (FeedItem × ItemWorld)) : Except JsError (Option St) :=
  if !hasFfmpeg && !hasYtDlp && !proceed then .ok none
  else
    match downloadLoop hasFfmpeg hasYtDlp existingFiles videoPosts St.init with
    | .error e => .error e
    | .ok st => .ok (some st)

/-! ## getLikedPosts (source lines 90-134) -/

/-- The part `response.data` of one answer of `agent.getActorLikes`. -/
structure Page where
  feed : List FeedItem
  cursor : Option String

/-- The `do ... while` loop of lines 106-130. The answer to the `call`-th request is
`api call` (an error when the request is rejected, which leaves the function); `fuel` bounds
the number of requests, and `none` says that it ran out. After the `break` test of line 128
the condition `while (cursor)` always holds, so the loop goes on exactly when the cursor is
truthy and fewer than 500 posts are collected. -/
def getLikedPostsLoop (api : Nat → Except JsError Page) :
    Nat → Nat → List FeedItem → Option (Except JsError (List FeedItem))
  | 0, _, _ => none
  | fuel + 1, call, likedPosts =>
    match api call with
    | .error e => some (.error e)
    | .ok response =>
      if truthyStr response.cursor = false ∨ 500 ≤ (likedPosts ++ response.feed).length then
        some (.ok (likedPosts ++ response.feed))
      else getLikedPostsLoop api fuel (call + 1) (likedPosts ++ response.feed)

/-- The function `getLikedPosts()`, with the answers of the API and a bound on the number
of requests as parameters. -/
def getLikedPosts (api : Nat → Except JsError Page) (fuel : Nat) :
    Option (Except JsError (List FeedItem)) :=
  getLikedPostsLoop api fuel 0 []

/-- The number of posts in the list a call of `getLikedPosts` returned, if it returned one. -/
def fetchedCount : Option (Except JsError (List FeedItem)) → Option Nat
  | some (.ok likedPosts) => some likedPosts.length
  | _ => none

/-! ## Properties named in the statements -/

/-- The rule for external embeds in the words of the specification: the external object is
present and either carries a set `isVideo` flag or has a non-empty URL that contains
`youtube.com`, `youtu.be` or `vimeo.com` or ends with `.mp4`. -/
def ExternalRule (e : Embed) : Prop :=
  ∃ x, e.external = some x ∧
    (x.isVideo = some true ∨
      ∃ url, x.url = some url ∧ url ≠ "" ∧
        ("youtube.com".data <:+: url.data ∨ "youtu.be".data <:+: url.data ∨
         "vimeo.com".data <:+: url.data ∨ ".mp4".data <:+ url.data))

/-- The item that has `e` for its embed and the `uri` of `post`. -/
def itemWithEmbed (post : Post) (e : Embed) : FeedItem :=
  { post := some { uri := post.uri, embed := some e } }

/-- The dedup test in the words of the specification: some file name of the listing starts
with `postId` followed by `_` and ends with `.mp4`. -/
def DedupHit (existingFiles : List String) (postId : String) : Prop :=
  ∃ file ∈ existingFiles, (postId ++ "_").data <+: file.data ∧ ".mp4".data <:+ file.data

/-- The string `seg` is the last `/`-separated segment of `uri`. -/
def IsLastSegment (uri seg : String) : Prop :=
  '/' ∉ seg.data ∧ (uri.data = seg.data ∨ ∃ q, uri.data = q ++ '/' :: seg.data)

/-- One item changed the state from `st` to `st1` as a download or as a failure: exactly one
of `downloadedCount` and `failedCount` went up by one, `skippedCount` stayed, the progress
bar ticked once, the log and the files only grew, every new file is at `out`, and `out` was
recorded as output exactly in the download case. -/
def CountedOnce (out : String) (st st1 : St) : Prop :=
  st1.skippedCount = st.skippedCount ∧ st1.ticks = st.ticks + 1 ∧
  (∃ evs, st1.log = st.log ++ evs) ∧
  (∃ new, st1.files = st.files ++ new ∧ ∀ f ∈ new, f = out) ∧
  ((st1.downloadedCount = st.downloadedCount + 1 ∧ st1.failedCount = st.failedCount ∧
      st1.outputs = st.outputs ++ [out]) ∨
   (st1.downloadedCount = st.downloadedCount ∧ st1.failedCount = st.failedCount + 1 ∧
      st1.outputs = st.outputs))

/-- Every item of the list has a post with a string `uri`. -/
def HaveUris (videoPosts : List (FeedItem × ItemWorld)) : Prop :=
  ∀ p ∈ videoPosts, ∃ post uri, p.1.post = some post ∧ post.uri = some uri

/-- Exactly one of the three counters went up by one from `st` to `st1`, the other two
stayed. -/
def OneCounterUp (st st1 : St) : Prop :=
  (st1.downloadedCount = st.downloadedCount + 1 ∧ st1.skippedCount = st.skippedCount ∧
    st1.failedCount = st.failedCount) ∨
  (st1.downloadedCount = st.downloadedCount ∧ st1.skippedCount = st.skippedCount + 1 ∧
    st1.failedCount = st.failedCount) ∨
  (st1.downloadedCount = st.downloadedCount ∧ st1.skippedCount = st.skippedCount ∧
    st1.failedCount = st.failedCount + 1)

/-- The embed `ve` is the video embed of a post with embed `embed`: `embed` itself when its
type is the video type, or `embed.media` when `embed` is of type recordWithMedia and the media
of the video type. -/
def VideoEmbedAt (embed ve : Embed) : Prop :=
  (∃ t, embed.type = some t ∧ cutType t = "app.bsky.embed.video" ∧ ve = embed) ∨
  (∃ t mt, embed.type = some t ∧ cutType t = "app.bsky.embed.recordWithMedia" ∧
    embed.media = some ve ∧ ve.type = some mt ∧ cutType mt = "app.bsky.embed.video")

/-- The embed `xe` is the external embed of a post with embed `embed`, at top level or as
the media of a recordWithMedia embed. -/
def ExternalEmbedAt (embed xe : Embed) : Prop :=
  (∃ t, embed.type = some t ∧ cutType t = "app.bsky.embed.external" ∧ xe = embed) ∨
  (∃ t mt, embed.type = some t ∧ cutType t = "app.bsky.embed.recordWithMedia" ∧
    embed.media = some xe ∧ xe.type = some mt ∧ cutType mt = "app.bsky.embed.external")

/-- The URL is an HLS stream by its shape: it contains `.m3u8` or `playlist`. -/
def HlsShaped (url : String) : Prop :=
  ".m3u8".data <:+: url.data ∨ "playlist".data <:+: url.data

/-- The URL names YouTube: it contains `youtube.com` or `youtu.be`. -/
def YoutubeShaped (url : String) : Prop :=
  "youtube.com".data <:+: url.data ∨ "youtu.be".data <:+: url.data

/-- The URL `u` is the one a post with embed `embed` is fetched from by the general download
step: the non-empty playlist of its video embed, or without a playlist the non-empty
`video.url`, or the non-empty URL of its external embed when that URL does not name YouTube
(a YouTube link is handed to yt-dlp before that step). -/
def ResolvedUrl (embed : Embed) (u : String) : Prop :=
  u ≠ "" ∧
  ((∃ ve, VideoEmbedAt embed ve ∧
      (ve.playlist = some u ∨
       ((ve.playlist = none ∨ ve.playlist = some "") ∧
        ∃ v, ve.video = some v ∧ v.url = some u))) ∨
   (∃ xe x, ExternalEmbedAt embed xe ∧ xe.external = some x ∧ x.url = some u ∧
      ¬ YoutubeShaped u))

/-- The event is a call of one of the two external tools. -/
def Event.isTool : Event → Bool
  | .ytDlp _ _ => true
  | .ffmpeg _ _ => true
  | _ => false

/-- The tool calls for an HLS stream as the specification orders them: ffmpeg first when it
is available, yt-dlp after a failed ffmpeg or in its absence, each only when available. -/
def hlsCalls (hasFfmpeg hasYtDlp ffmpegResolves : Bool) (url out : String) : List Event :=
  if hasFfmpeg then
    Event.ffmpeg url out :: (if !ffmpegResolves && hasYtDlp then [Event.ytDlp url out] else [])
  else if hasYtDlp then [Event.ytDlp url out]
  else []

/-- The calls of a direct download: the `HEAD` request, the `GET` request after a resolved
`HEAD`, the write stream after a resolved `GET`. -/
def directCalls (w : ItemWorld) (url out : String) : List Event :=
  Event.httpHead url ::
    (if w.headOk then
      Event.httpGet url :: (if w.getOk then [Event.createWriteStream out] else [])
     else [])

/-- No failing call of this world leaves a file behind: a tool that rejects has left none,
and the write stream does not fail after creating its file. -/
def LeavesNothingOnFailure (w : ItemWorld) : Prop :=
  (w.ytDlp.resolves = false → w.ytDlp.leavesOutput = false) ∧
  (w.ffmpeg.resolves = false → w.ffmpeg.leavesOutput = false) ∧
  w.write ≠ WriteResult.errorPartial

/-! ## Sample inputs -/

/-- A post URI whose last segment is `abc123`. -/
def sampleUri : String := "at://did:plc:alice/app.bsky.feed.post/abc123"

/-- An external embed whose URL ends in `.mp4`, without `isVideo` flag. -/
def mp4Embed : Embed :=
  .mk (some "app.bsky.embed.external#view")
    (some { isVideo := none, url := some "https://cdn.example.org/clip.mp4" }) none none none

/-- A video embed with a playlist of the usual shape. -/
def hlsEmbed : Embed :=
  .mk (some "app.bsky.embed.video#view") none
    (some "https://video.bsky.app/watch/did/cid/playlist.m3u8") none none

/-- A quote post whose media is `hlsEmbed`. -/
def quoteEmbed : Embed :=
  .mk (some "app.bsky.embed.recordWithMedia#view") none none none (some hlsEmbed)

/-- The feed item with URI `sampleUri` and the given embed. -/
def sampleItem (e : Embed) : FeedItem :=
  { post := some { uri := some sampleUri, embed := some e } }

/-- A video embed whose playlist URL contains neither `.m3u8` nor `playlist`. -/
def plainPlaylistEmbed : Embed :=
  .mk (some "app.bsky.embed.video#view") none (some "https://cdn.example.org/v/master") none none

/-- An external embed linking to Vimeo. -/
def vimeoEmbed : Embed :=
  .mk (some "app.bsky.embed.external#view")
    (some { isVideo := none, url := some "https://vimeo.com/12345" }) none none none

/-- An external embed linking to a YouTube playlist page. -/
def youtubePlaylistEmbed : Embed :=
  .mk (some "app.bsky.embed.external#view")
    (some { isVideo := none, url := some "https://www.youtube.com/playlist?list=PL1" })
    none none none

/-- An embed object without `$type` field. -/
def untypedEmbed : Embed := .mk none none none none none

/-- A quote post whose media has no `$type` field. -/
def untypedMediaEmbed : Embed :=
  .mk (some "app.bsky.embed.recordWithMedia#view") none none none (some untypedEmbed)

/-- An embed of a type the program does not know. -/
def imagesEmbed : Embed := .mk (some "app.bsky.embed.images#view") none none none none

/-- An API that answers every request with 99 posts and a cursor. -/
def pagesOf99 : Nat → Except JsError Page :=
  fun _ => .ok { feed := List.replicate 99 (sampleItem hlsEmbed), cursor := some "next" }

/-- An API that answers the first request with 99 posts and a cursor, every later one with
one post and no cursor. -/
def twoPages : Nat → Except JsError Page
  | 0 => .ok { feed := List.replicate 99 (sampleItem hlsEmbed), cursor := some "next" }
  | _ => .ok { feed := [sampleItem mp4Embed], cursor := none }

/-- An external embed linking to a YouTube live stream whose URL ends in `.m3u8`. -/
def youtubeHlsEmbed : Embed :=
  .mk (some "app.bsky.embed.external#view")
    (some { isVideo := none, url := some "https://youtu.be/live/stream.m3u8" }) none none none

/-- The answers of a world in which every call succeeds, at clock reading 999. -/
def worldOk : ItemWorld :=
  { timestamp := 999, ytDlp := ⟨true, true⟩, ffmpeg := ⟨true, true⟩, headOk := true,
    getOk := true, write := .finish }

/-! ## Facts about the string methods -/

theorem includesChars_iff (needle hay : List Char) :
    includesChars needle hay = true ↔ needle <:+: hay := by
  induction hay with
  | nil => simp [includesChars]
  | cons c cs ih => simp [includesChars, ih, List.infix_cons_iff]

theorem strIncludes_iff (s sub : String) :
    strIncludes s sub = true ↔ sub.data <:+: s.data := by
  simp [strIncludes, includesChars_iff]

theorem strStartsWith_iff (s pre : String) :
    strStartsWith s pre = true ↔ pre.data <+: s.data := by
  simp [strStartsWith]

theorem strEndsWith_iff (s suf : String) :
    strEndsWith s suf = true ↔ suf.data <:+ s.data := by
  simp [strEndsWith]

theorem truthyStr_some (s : String) : truthyStr (some s) = true ↔ s ≠ "" := by
  simp [truthyStr]

theorem splitChars_ne_nil (sep : Char) (l : List Char) : splitChars sep l ≠ [] := by
  cases l with
  | nil => simp [splitChars]
  | cons c cs =>
    unfold splitChars
    split <;> split <;> simp

theorem splitChars_of_not_mem (sep : Char) (l : List Char) (h : sep ∉ l) :
    splitChars sep l = [l] := by
  induction l with
  | nil => simp [splitChars]
  | cons c cs ih =>
    have hc : c ≠ sep := fun hc => h (by simp [hc])
    have hcs : sep ∉ cs := fun hcs => h (by simp [hcs])
    rw [splitChars, ih hcs]
    simp [hc]

theorem splitChars_append_sep (sep : Char) (a b : List Char) :
    splitChars sep (a ++ sep :: b) = splitChars sep a ++ splitChars sep b := by
  induction a with
  | nil =>
    obtain ⟨w, ws, hw⟩ := List.exists_cons_of_ne_nil (splitChars_ne_nil sep b)
    simp [splitChars, hw]
  | cons c cs ih =>
    obtain ⟨w, ws, hw⟩ := List.exists_cons_of_ne_nil (splitChars_ne_nil sep cs)
    rw [List.cons_append, splitChars, ih, hw]
    by_cases hc : c = sep <;> simp [splitChars, hw, hc]

/-- The value of `uri.split('/').pop()` is the part of `uri` after its last `/`
(all of `uri` when it has none). -/
theorem lastSegment_eq (uri seg : String) (pre : List Char)
    (huri : uri.data = pre ++ seg.data) (hpre : pre = [] ∨ ∃ q, pre = q ++ ['/'])
    (hseg : '/' ∉ seg.data) : lastSegment uri = seg := by
  unfold lastSegment strSplit
  rcases hpre with rfl | ⟨q, rfl⟩
  · simp only [List.nil_append] at huri
    rw [huri, splitChars_of_not_mem _ _ hseg]
    rfl
  · have : uri.data = q ++ '/' :: seg.data := by simp [huri]
    rw [this, splitChars_append_sep, splitChars_of_not_mem _ _ hseg, List.map_append,
      List.getLastD_eq_getLast?, List.getLast?_append]
    rfl

/-- The value of `t.split('#')[0]` is the part of `t` before its first `#`. -/
theorem cutType_eq (t x : String) (rest : List Char)
    (ht : t.data = x.data ++ rest) (hrest : rest = [] ∨ ∃ r, rest = '#' :: r)
    (hx : '#' ∉ x.data) : cutType t = x := by
  unfold cutType strSplit
  rcases hrest with rfl | ⟨r, rfl⟩
  · simp only [List.append_nil] at ht
    rw [ht, splitChars_of_not_mem _ _ hx]
    rfl
  · rw [ht, splitChars_append_sep, splitChars_of_not_mem _ _ hx]
    rfl

/-! ## Facts about filterVideoPosts -/

theorem externalIsVideo_iff (e : Embed) : externalIsVideo e.external = true ↔ ExternalRule e := by
  unfold externalIsVideo ExternalRule
  cases hx : e.external with
  | none => simp
  | some x =>
    obtain ⟨flag, url⟩ := x
    cases url with
    | none => cases flag <;> simp [truthyFlag]
    | some u =>
      cases flag <;>
        simp [truthyFlag, truthyStr, strIncludes_iff, strEndsWith_iff, or_assoc]

theorem filterLoop_mem (likedPosts : List FeedItem) :
    ∀ (acc out : List FeedItem), filterLoop acc likedPosts = .ok out →
      ∀ x, x ∈ out ↔ x ∈ acc ∨ (x ∈ likedPosts ∧ isVideoPost x = .ok true) := by
  induction likedPosts with
  | nil =>
    intro acc out h x
    simp only [filterLoop, Except.ok.injEq] at h
    simp [h]
  | cons item rest ih =>
    intro acc out h x
    rw [filterLoop] at h
    cases hk : isVideoPost item with
    | error e => rw [hk] at h; simp at h
    | ok b =>
      rw [hk] at h
      cases b with
      | true =>
        simp only at h
        rw [ih _ _ h x]
        constructor
        · rintro (hx | ⟨hx, hv⟩)
          · rcases List.mem_append.1 hx with hx | hx
            · exact Or.inl hx
            · simp only [List.mem_singleton] at hx
              exact Or.inr ⟨by simp [hx], hx ▸ hk⟩
          · exact Or.inr ⟨by simp [hx], hv⟩
        · rintro (hx | ⟨hx, hv⟩)
          · exact Or.inl (List.mem_append.2 (Or.inl hx))
          · rcases List.mem_cons.1 hx with hx | hx
            · exact Or.inl (List.mem_append.2 (Or.inr (by simp [hx])))
            · exact Or.inr ⟨hx, hv⟩
      | false =>
        simp only at h
        rw [ih _ _ h x]
        constructor
        · rintro (hx | ⟨hx, hv⟩)
          · exact Or.inl hx
          · exact Or.inr ⟨by simp [hx], hv⟩
        · rintro (hx | ⟨hx, hv⟩)
          · exact Or.inl hx
          · rcases List.mem_cons.1 hx with hx | hx
            · rw [hx, hk] at hv; simp at hv
            · exact Or.inr ⟨hx, hv⟩

theorem filterVideoPosts_mem (likedPosts videoPosts : List FeedItem)
    (h : filterVideoPosts likedPosts = .ok videoPosts) (x : FeedItem) :
    x ∈ videoPosts ↔ x ∈ likedPosts ∧ isVideoPost x = .ok true := by
  have := filterLoop_mem likedPosts [] videoPosts h x
  simpa using this

/-! ## C1, C2: classification of external and recordWithMedia embeds -/

/-- C1. For a feed item whose `post.embed.$type`, cut at `#`, is `app.bsky.embed.external`,
the loop body of `filterVideoPosts` returns, and it pushes the item exactly when the external
object is present and either `isVideo` is set or the URL is a non-empty string containing
`youtube.com`, `youtu.be` or `vimeo.com` or ending in `.mp4`; the same holds for membership
in the list `filterVideoPosts` returns. -/
theorem filterVideoPosts_external_rule (item : FeedItem) (post : Post) (embed : Embed)
    (t : String) (hpost : item.post = some post) (hembed : post.embed = some embed)
    (htype : embed.type = some t) (hcut : cutType t = "app.bsky.embed.external") :
    (isVideoPost item = .ok true ↔ ExternalRule embed) ∧
    (isVideoPost item = .ok false ↔ ¬ ExternalRule embed) ∧
    (∀ likedPosts videoPosts, filterVideoPosts likedPosts = .ok videoPosts →
      item ∈ likedPosts → (item ∈ videoPosts ↔ ExternalRule embed)) := by
  have hbody : isVideoPost item = .ok (externalIsVideo embed.external) := by
    simp [isVideoPost, hpost, hembed, htype, hcut]
  have h1 : isVideoPost item = .ok true ↔ ExternalRule embed := by
    rw [hbody, ← externalIsVideo_iff]
    simp
  refine ⟨h1, ?_, ?_⟩
  · rw [hbody, ← externalIsVideo_iff]
    simp
  · intro likedPosts videoPosts hrun hmem
    rw [filterVideoPosts_mem likedPosts videoPosts hrun item, ← h1]
    simp [hmem]

/-- Instance of C1: an external link ending in `.mp4` without `isVideo` flag. -/
theorem filterVideoPosts_external_rule_witness :
    (sampleItem mp4Embed).post = some { uri := some sampleUri, embed := some mp4Embed } ∧
    mp4Embed.type = some "app.bsky.embed.external#view" ∧
    cutType "app.bsky.embed.external#view" = "app.bsky.embed.external" ∧
    ((isVideoPost (sampleItem mp4Embed) = .ok true ↔ ExternalRule mp4Embed) ∧
     (isVideoPost (sampleItem mp4Embed) = .ok false ↔ ¬ ExternalRule mp4Embed) ∧
     (∀ likedPosts videoPosts, filterVideoPosts likedPosts = .ok videoPosts →
       sampleItem mp4Embed ∈ likedPosts →
       (sampleItem mp4Embed ∈ videoPosts ↔ ExternalRule mp4Embed))) :=
  ⟨rfl, rfl, by decide,
    filterVideoPosts_external_rule (sampleItem mp4Embed)
      { uri := some sampleUri, embed := some mp4Embed } mp4Embed
      "app.bsky.embed.external#view" rfl rfl rfl (by decide)⟩

/-- C2. For a feed item whose embed type is `app.bsky.embed.recordWithMedia`: without
`embed.media` the item is dropped; with it, the item is pushed exactly when the media has a
`$type` that is the video type, or the external type with the external rule holding of the
media, which is exactly when the item with `embed.media` for embed is pushed under the video
or the external rule; media of type video is always pushed. The same holds for membership in
the list `filterVideoPosts` returns. -/
theorem filterVideoPosts_recordWithMedia_rule (item : FeedItem) (post : Post) (embed : Embed)
    (t : String) (hpost : item.post = some post) (hembed : post.embed = some embed)
    (htype : embed.type = some t) (hcut : cutType t = "app.bsky.embed.recordWithMedia") :
    (embed.media = none → isVideoPost item = .ok false) ∧
    (∀ media, embed.media = some media →
      (isVideoPost item = .ok true ↔
        ∃ mt, media.type = some mt ∧
          (cutType mt = "app.bsky.embed.video" ∨
           (cutType mt = "app.bsky.embed.external" ∧ ExternalRule media))) ∧
      (isVideoPost item = .ok true ↔
        (∃ mt, media.type = some mt ∧
          (cutType mt = "app.bsky.embed.video" ∨ cutType mt = "app.bsky.embed.external")) ∧
        isVideoPost (itemWithEmbed post media) = .ok true) ∧
      (∀ mt, media.type = some mt → cutType mt = "app.bsky.embed.video" →
        isVideoPost item = .ok true) ∧
      (∀ mt, media.type = some mt → ∃ b, isVideoPost item = .ok b) ∧
      (∀ likedPosts videoPosts, filterVideoPosts likedPosts = .ok videoPosts →
        item ∈ likedPosts →
        (item ∈ videoPosts ↔
          ∃ mt, media.type = some mt ∧
            (cutType mt = "app.bsky.embed.video" ∨
             (cutType mt = "app.bsky.embed.external" ∧ ExternalRule media))))) := by
  have hne1 : ("app.bsky.embed.recordWithMedia" : String) ≠ "app.bsky.embed.video" := by decide
  have hne2 : ("app.bsky.embed.recordWithMedia" : String) ≠ "app.bsky.embed.external" := by
    decide
  have hne3 : ("app.bsky.embed.external" : String) ≠ "app.bsky.embed.video" := by decide
  have hne4 : ("app.bsky.embed.video" : String) ≠ "app.bsky.embed.external" := by decide
  refine ⟨?_, ?_⟩
  · intro hm
    simp [isVideoPost, hpost, hembed, htype, hcut, hne1, hne2, hm]
  · intro media hm
    have key : isVideoPost item = .ok true ↔
        ∃ mt, media.type = some mt ∧
          (cutType mt = "app.bsky.embed.video" ∨
           (cutType mt = "app.bsky.embed.external" ∧ ExternalRule media)) := by
      cases hmt : media.type with
      | none => simp [isVideoPost, hpost, hembed, htype, hcut, hne1, hne2, hm, hmt]
      | some mt =>
        simp only [isVideoPost, hpost, hembed, htype, hcut, hne1, hne2, hm, hmt, if_false,
          if_true]
        by_cases hv : cutType mt = "app.bsky.embed.video"
        · simp [hv]
        · by_cases hx : cutType mt = "app.bsky.embed.external"
          · simp [hx, hne3, externalIsVideo_iff]
          · simp [hv, hx]
    refine ⟨key, ?_, ?_, ?_, ?_⟩
    · rw [key]
      cases hmt : media.type with
      | none => simp [isVideoPost, itemWithEmbed, hmt]
      | some mt =>
        simp only [isVideoPost, itemWithEmbed, hmt]
        by_cases hv : cutType mt = "app.bsky.embed.video"
        · simp [hv]
        · by_cases hx : cutType mt = "app.bsky.embed.external"
          · simp [hx, hne3, externalIsVideo_iff]
          · simp [hv, hx]
    · intro mt hmt hv
      exact key.2 ⟨mt, hmt, Or.inl hv⟩
    · intro mt hmt
      simp only [isVideoPost, hpost, hembed, htype, hcut, hne1, hne2, hm, hmt, if_false]
      by_cases hv : cutType mt = "app.bsky.embed.video"
      · simp [hv]
      · by_cases hx : (cutType mt = "app.bsky.embed.external" &&
            externalIsVideo media.external) = true
        · exact ⟨true, by simp [hv, hx]⟩
        · exact ⟨false, by simp [hv, hx]⟩
    · intro likedPosts videoPosts hrun hmem
      rw [filterVideoPosts_mem likedPosts videoPosts hrun item, ← key]
      simp [hmem]

/-- Instance of C2: a quote post whose media is a video embed. -/
theorem filterVideoPosts_recordWithMedia_rule_witness :
    (sampleItem quoteEmbed).post = some { uri := some sampleUri, embed := some quoteEmbed } ∧
    quoteEmbed.type = some "app.bsky.embed.recordWithMedia#view" ∧
    cutType "app.bsky.embed.recordWithMedia#view" = "app.bsky.embed.recordWithMedia" ∧
    isVideoPost (sampleItem quoteEmbed) = .ok true :=
  ⟨rfl, rfl, by decide,
    (((filterVideoPosts_recordWithMedia_rule (sampleItem quoteEmbed)
      { uri := some sampleUri, embed := some quoteEmbed } quoteEmbed
      "app.bsky.embed.recordWithMedia#view" rfl rfl rfl (by decide)).2 hlsEmbed rfl).2.2.1
      "app.bsky.embed.video#view" rfl (by decide))⟩

/-! ## Facts about the item loop -/

theorem alreadyDownloaded_iff (existingFiles : List String) (postId : String) :
    alreadyDownloaded existingFiles postId = true ↔ DedupHit existingFiles postId := by
  simp [alreadyDownloaded, DedupHit, strStartsWith_iff, strEndsWith_iff]

theorem lastSegment_of_isLastSegment (uri seg : String) (h : IsLastSegment uri seg) :
    lastSegment uri = seg := by
  obtain ⟨hseg, huri | ⟨q, huri⟩⟩ := h
  · exact lastSegment_eq uri seg [] (by simpa using huri) (Or.inl rfl) hseg
  · exact lastSegment_eq uri seg (q ++ ['/']) (by simpa using huri) (Or.inr ⟨q, rfl⟩) hseg

theorem countedOnce_countFailed (out : String) (st : St) : CountedOnce out st st.countFailed :=
  ⟨rfl, rfl, ⟨[], by simp [St.countFailed]⟩, ⟨[], by simp [St.countFailed]⟩,
    Or.inr ⟨rfl, rfl, rfl⟩⟩

theorem countedOnce_youtubeBranch (hasYtDlp : Bool) (w : ItemWorld) (postId videoUrl : String)
    (st : St) :
    CountedOnce (outputName postId w.timestamp) st
      (youtubeBranch hasYtDlp w postId videoUrl st) := by
  unfold youtubeBranch CountedOnce
  cases hasYtDlp <;> cases hr : w.ytDlp.resolves <;> cases hl : w.ytDlp.leavesOutput <;>
    simp [St.exec, St.countDownloaded, St.countFailed, hr, hl]

theorem countedOnce_downloadHls (hasFfmpeg hasYtDlp : Bool) (w : ItemWorld)
    (videoUrl out : String) (st : St) :
    CountedOnce out st (downloadHls hasFfmpeg hasYtDlp w videoUrl out st) := by
  unfold downloadHls CountedOnce
  cases hasFfmpeg <;> cases hasYtDlp <;> cases hr : w.ytDlp.resolves <;>
    cases hl : w.ytDlp.leavesOutput <;> cases hr2 : w.ffmpeg.resolves <;>
    cases hl2 : w.ffmpeg.leavesOutput <;>
    simp [St.exec, St.countDownloaded, St.countFailed, hr, hl, hr2, hl2]

theorem countedOnce_downloadDirect (w : ItemWorld) (videoUrl out : String) (st : St) :
    CountedOnce out st (downloadDirect w videoUrl out st) := by
  unfold downloadDirect CountedOnce
  cases hh : w.headOk <;> cases hg : w.getOk <;> cases hw : w.write <;>
    simp [St.call, St.writeStream, St.countDownloaded, St.countFailed, hh, hg, hw]

theorem extractExternal_handled (hasYtDlp : Bool) (w : ItemWorld) (postId : String) (e : Embed)
    (st st1 : St) (h : extractExternal hasYtDlp w postId e st = .handled st1) :
    ∃ videoUrl, st1 = youtubeBranch hasYtDlp w postId videoUrl st := by
  unfold extractExternal at h
  split at h
  · simp at h
  · split at h
    · simp at h
    · split_ifs at h
      · simp only [Extracted.handled.injEq] at h
        exact ⟨_, h.symm⟩

theorem extractUrl_handled (hasYtDlp : Bool) (w : ItemWorld) (postId : String) (post : Post)
    (st st1 : St) (h : extractUrl hasYtDlp w postId post st = .handled st1) :
    ∃ videoUrl, st1 = youtubeBranch hasYtDlp w postId videoUrl st := by
  unfold extractUrl at h
  split at h
  · simp at h
  · split at h
    · simp at h
    · simp only at h
      split_ifs at h
      · exact extractExternal_handled _ _ _ _ _ _ h
      · split at h
        · simp at h
        · split at h
          · simp at h
          · split_ifs at h
            exact extractExternal_handled _ _ _ _ _ _ h

theorem countedOnce_tryItem (hasFfmpeg hasYtDlp : Bool) (w : ItemWorld) (postId : String)
    (post : Post) (st : St) :
    CountedOnce (outputName postId w.timestamp) st
      (tryItem hasFfmpeg hasYtDlp w postId post st) := by
  unfold tryItem
  split
  · exact countedOnce_countFailed _ _
  · rename_i st1 h
    obtain ⟨u, rfl⟩ := extractUrl_handled _ _ _ _ _ _ h
    exact countedOnce_youtubeBranch _ _ _ _ _
  · exact countedOnce_countFailed _ _
  · split_ifs
    · exact countedOnce_downloadHls _ _ _ _ _ _
    · exact countedOnce_downloadDirect _ _ _ _
    · exact countedOnce_countFailed _ _

theorem processItem_ok (hasFfmpeg hasYtDlp : Bool) (existingFiles : List String)
    (item : FeedItem) (post : Post) (uri : String) (w : ItemWorld) (st : St)
    (hpost : item.post = some post) (huri : post.uri = some uri) :
    processItem hasFfmpeg hasYtDlp existingFiles item w st =
      .ok (if alreadyDownloaded existingFiles (lastSegment uri) then st.countSkipped
           else tryItem hasFfmpeg hasYtDlp w (lastSegment uri) post st) := by
  simp only [processItem, hpost, huri]
  split_ifs <;> rfl

theorem oneCounterUp_processItem (hasFfmpeg hasYtDlp : Bool) (existingFiles : List String)
    (item : FeedItem) (post : Post) (uri : String) (w : ItemWorld) (st : St)
    (hpost : item.post = some post) (huri : post.uri = some uri) :
    ∃ st1, processItem hasFfmpeg hasYtDlp existingFiles item w st = .ok st1 ∧
      OneCounterUp st st1 ∧ st1.ticks = st.ticks + 1 := by
  refine ⟨_, processItem_ok _ _ _ _ _ _ _ _ hpost huri, ?_⟩
  split_ifs
  · exact ⟨Or.inr (Or.inl ⟨rfl, rfl, rfl⟩), rfl⟩
  · obtain ⟨hs, ht, -, -, h | h⟩ := countedOnce_tryItem hasFfmpeg hasYtDlp w (lastSegment uri)
      post st
    · exact ⟨Or.inl ⟨h.1, hs, h.2.1⟩, ht⟩
    · exact ⟨Or.inr (Or.inr ⟨h.1, hs, h.2.1⟩), ht⟩

theorem downloadLoop_sum (hasFfmpeg hasYtDlp : Bool) (existingFiles : List String)
    (videoPosts : List (FeedItem × ItemWorld)) (h : HaveUris videoPosts) :
    ∀ st, ∃ st1, downloadLoop hasFfmpeg hasYtDlp existingFiles videoPosts st = .ok st1 ∧
      st1.downloadedCount + st1.skippedCount + st1.failedCount =
        st.downloadedCount + st.skippedCount + st.failedCount + videoPosts.length ∧
      st1.ticks = st.ticks + videoPosts.length := by
  induction videoPosts with
  | nil => intro st; exact ⟨st, rfl, rfl, rfl⟩
  | cons p rest ih =>
    intro st
    obtain ⟨item, w⟩ := p
    obtain ⟨post, uri, hpost, huri⟩ := h (item, w) (by simp)
    obtain ⟨st1, hst1, hup, hticks⟩ :=
      oneCounterUp_processItem hasFfmpeg hasYtDlp existingFiles item post uri w st hpost huri
    obtain ⟨st2, hst2, hsum, hticks2⟩ := ih (fun q hq => h q (by simp [hq])) st1
    refine ⟨st2, ?_, ?_, ?_⟩
    · simp only [downloadLoop, hst1, hst2]
    · simp only [List.length_cons]
      rcases hup with ⟨h1, h2, h3⟩ | ⟨h1, h2, h3⟩ | ⟨h1, h2, h3⟩ <;> omega
    · simp only [List.length_cons]
      omega

theorem isHls_iff (url : String) : isHls url = true ↔ HlsShaped url := by
  simp [isHls, HlsShaped, strIncludes_iff]

theorem youtube_iff (url : String) :
    (strIncludes url "youtube.com" || strIncludes url "youtu.be") = true ↔ YoutubeShaped url := by
  simp [YoutubeShaped, strIncludes_iff]

theorem ne_empty_of_hlsShaped (url : String) (h : HlsShaped url) : url ≠ "" := by
  rintro rfl
  rcases h with h | h <;> simp at h

theorem downloadHls_log (hasFfmpeg hasYtDlp : Bool) (w : ItemWorld) (videoUrl out : String)
    (st : St) :
    (downloadHls hasFfmpeg hasYtDlp w videoUrl out st).log =
      st.log ++ hlsCalls hasFfmpeg hasYtDlp w.ffmpeg.resolves videoUrl out := by
  unfold downloadHls hlsCalls
  cases hasFfmpeg <;> cases hasYtDlp <;> cases hr : w.ytDlp.resolves <;>
    cases hr2 : w.ffmpeg.resolves <;>
    simp [St.exec, St.countDownloaded, St.countFailed, hr, hr2]

theorem downloadDirect_log (w : ItemWorld) (videoUrl out : String) (st : St) :
    (downloadDirect w videoUrl out st).log = st.log ++ directCalls w videoUrl out := by
  unfold downloadDirect directCalls
  cases hh : w.headOk <;> cases hg : w.getOk <;> cases hw : w.write <;>
    simp [St.call, St.writeStream, St.countDownloaded, St.countFailed, hh, hg, hw]

theorem hlsCalls_mem (hasFfmpeg hasYtDlp ffmpegResolves : Bool) (url out : String)
    (ev : Event) (hev : ev ∈ hlsCalls hasFfmpeg hasYtDlp ffmpegResolves url out) :
    ev = Event.ffmpeg url out ∨ ev = Event.ytDlp url out := by
  unfold hlsCalls at hev
  cases hasFfmpeg <;> cases hasYtDlp <;> cases ffmpegResolves <;> simp at hev <;> tauto

theorem directCalls_isTool (w : ItemWorld) (url out : String) (ev : Event)
    (hev : ev ∈ directCalls w url out) : ev.isTool = false := by
  unfold directCalls at hev
  cases hh : w.headOk <;> cases hg : w.getOk <;> simp [hh, hg] at hev <;>
    rcases hev with rfl | rfl | rfl <;> rfl

theorem videoUrlOf_playlist (ve : Embed) (u : String) (hpl : ve.playlist = some u)
    (hne : u ≠ "") : videoUrlOf ve = some u := by
  simp [videoUrlOf, hpl, truthyStr, hne]

theorem extractUrl_video (hasYtDlp : Bool) (w : ItemWorld) (postId : String) (post : Post)
    (embed ve : Embed) (st : St) (hembed : post.embed = some embed)
    (hve : VideoEmbedAt embed ve) :
    extractUrl hasYtDlp w postId post st = .url (videoUrlOf ve) := by
  have hne1 : ("app.bsky.embed.recordWithMedia" : String) ≠ "app.bsky.embed.video" := by decide
  have hne2 : ("app.bsky.embed.recordWithMedia" : String) ≠ "app.bsky.embed.external" := by
    decide
  rcases hve with ⟨t, ht, hcut, rfl⟩ | ⟨t, mt, ht, hcut, hm, hmt, hmcut⟩
  · simp [extractUrl, hembed, ht, hcut]
  · simp [extractUrl, hembed, ht, hcut, hne1, hne2, hm, hmt, hmcut]

theorem extractUrl_external (hasYtDlp : Bool) (w : ItemWorld) (postId : String) (post : Post)
    (embed xe : Embed) (st : St) (hembed : post.embed = some embed)
    (hxe : ExternalEmbedAt embed xe) :
    extractUrl hasYtDlp w postId post st = extractExternal hasYtDlp w postId xe st := by
  have hne1 : ("app.bsky.embed.recordWithMedia" : String) ≠ "app.bsky.embed.video" := by decide
  have hne2 : ("app.bsky.embed.recordWithMedia" : String) ≠ "app.bsky.embed.external" := by
    decide
  have hne3 : ("app.bsky.embed.external" : String) ≠ "app.bsky.embed.video" := by decide
  rcases hxe with ⟨t, ht, hcut, rfl⟩ | ⟨t, mt, ht, hcut, hm, hmt, hmcut⟩
  · simp [extractUrl, hembed, ht, hcut, hne3]
  · simp [extractUrl, hembed, ht, hcut, hne1, hne2, hne3, hm, hmt, hmcut]

theorem processItem_new (hasFfmpeg hasYtDlp : Bool) (existingFiles : List String)
    (item : FeedItem) (post : Post) (uri : String) (w : ItemWorld) (st : St)
    (hpost : item.post = some post) (huri : post.uri = some uri)
    (hnew : ¬ DedupHit existingFiles (lastSegment uri)) :
    processItem hasFfmpeg hasYtDlp existingFiles item w st =
      .ok (tryItem hasFfmpeg hasYtDlp w (lastSegment uri) post st) := by
  have h : alreadyDownloaded existingFiles (lastSegment uri) = false := by
    rw [← Bool.not_eq_true, alreadyDownloaded_iff]
    exact hnew
  rw [processItem_ok _ _ _ _ _ _ _ _ hpost huri, h]
  rfl

theorem tryItem_url (hasFfmpeg hasYtDlp : Bool) (w : ItemWorld) (postId : String) (post : Post)
    (st : St) (u : String) (hne : u ≠ "")
    (hres : extractUrl hasYtDlp w postId post st = .url (some u)) :
    tryItem hasFfmpeg hasYtDlp w postId post st =
      if isHls u then downloadHls hasFfmpeg hasYtDlp w u (outputName postId w.timestamp) st
      else downloadDirect w u (outputName postId w.timestamp) st := by
  simp [tryItem, hres, truthyStr, hne]

/-! ## C3: the playlist field -/

/-- C3 at a playlist URL without `.m3u8` and `playlist`. The embed is a video embed with a
non-empty playlist field, which the comment of lines 285 and 348 calls an HLS stream; with
both tools available the program calls neither of them: it sends the `HEAD` and `GET`
requests of the direct download, writes the answer to the output path and counts the item
as downloaded. -/
theorem playlist_field_fetched_directly :
    VideoEmbedAt plainPlaylistEmbed plainPlaylistEmbed ∧
    plainPlaylistEmbed.playlist = some "https://cdn.example.org/v/master" ∧
    processItem true true [] (sampleItem plainPlaylistEmbed) worldOk St.init =
      .ok { downloadedCount := 1, skippedCount := 0, failedCount := 0, ticks := 1,
            log := [Event.httpHead "https://cdn.example.org/v/master",
                    Event.httpGet "https://cdn.example.org/v/master",
                    Event.createWriteStream "abc123_999.mp4"],
            files := ["abc123_999.mp4"], outputs := ["abc123_999.mp4"] } :=
  ⟨Or.inl ⟨_, rfl, by decide, rfl⟩, rfl, rfl⟩

/-- How the program routes a playlist URL. For a video embed (top-level, or the media of a
recordWithMedia embed) with a non-empty playlist URL, the playlist URL is the one fetched.
The calls are those of the HLS branch, each an ffmpeg or yt-dlp call on that URL, when the
URL contains `.m3u8` or `playlist`; otherwise they are those of the direct download, which
starts with a `HEAD` request for that URL and calls no tool. -/
theorem playlist_url_routing (hasFfmpeg hasYtDlp : Bool) (existingFiles : List String)
    (item : FeedItem) (post : Post) (uri : String) (embed ve : Embed) (u : String)
    (w : ItemWorld) (st : St)
    (hpost : item.post = some post) (huri : post.uri = some uri)
    (hembed : post.embed = some embed) (hve : VideoEmbedAt embed ve)
    (hpl : ve.playlist = some u) (hne : u ≠ "")
    (hnew : ¬ DedupHit existingFiles (lastSegment uri)) :
    ∃ st1 evs, processItem hasFfmpeg hasYtDlp existingFiles item w st = .ok st1 ∧
      st1.log = st.log ++ evs ∧
      (HlsShaped u →
        evs = hlsCalls hasFfmpeg hasYtDlp w.ffmpeg.resolves u
                (outputName (lastSegment uri) w.timestamp) ∧
        ∀ ev ∈ evs, ev = Event.ffmpeg u (outputName (lastSegment uri) w.timestamp) ∨
                    ev = Event.ytDlp u (outputName (lastSegment uri) w.timestamp)) ∧
      (¬ HlsShaped u →
        evs = directCalls w u (outputName (lastSegment uri) w.timestamp) ∧
        evs.head? = some (Event.httpHead u) ∧ ∀ ev ∈ evs, ev.isTool = false) := by
  have hres : extractUrl hasYtDlp w (lastSegment uri) post st = .url (some u) := by
    rw [extractUrl_video hasYtDlp w _ post embed ve st hembed hve, videoUrlOf_playlist ve u hpl hne]
  have hrun := processItem_new hasFfmpeg hasYtDlp existingFiles item post uri w st hpost huri hnew
  rw [tryItem_url hasFfmpeg hasYtDlp w _ post st u hne hres] at hrun
  by_cases hh : HlsShaped u
  · have hb := (isHls_iff u).2 hh
    rw [hb] at hrun
    refine ⟨_, _, hrun, downloadHls_log _ _ _ _ _ _, fun _ => ⟨rfl, ?_⟩, fun hn => absurd hh hn⟩
    exact fun ev hev => hlsCalls_mem _ _ _ _ _ ev hev
  · have hb : isHls u = false := by
      rw [← Bool.not_eq_true, isHls_iff]
      exact hh
    rw [hb] at hrun
    refine ⟨_, _, hrun, downloadDirect_log _ _ _ _, fun h => absurd h hh, fun _ => ⟨rfl, rfl, ?_⟩⟩
    exact fun ev hev => directCalls_isTool _ _ _ ev hev

/-- The routing of the playlist of `hlsEmbed`, with both tools available. -/
theorem playlist_url_routing_witness :
    VideoEmbedAt hlsEmbed hlsEmbed ∧
    hlsEmbed.playlist = some "https://video.bsky.app/watch/did/cid/playlist.m3u8" ∧
    ¬ DedupHit [] (lastSegment sampleUri) ∧
    ∃ st1 evs, processItem true true [] (sampleItem hlsEmbed) worldOk St.init = .ok st1 ∧
      st1.log = St.init.log ++ evs ∧
      (HlsShaped "https://video.bsky.app/watch/did/cid/playlist.m3u8" →
        evs = hlsCalls true true worldOk.ffmpeg.resolves
                "https://video.bsky.app/watch/did/cid/playlist.m3u8"
                (outputName (lastSegment sampleUri) worldOk.timestamp) ∧
        ∀ ev ∈ evs,
          ev = Event.ffmpeg "https://video.bsky.app/watch/did/cid/playlist.m3u8"
                (outputName (lastSegment sampleUri) worldOk.timestamp) ∨
          ev = Event.ytDlp "https://video.bsky.app/watch/did/cid/playlist.m3u8"
                (outputName (lastSegment sampleUri) worldOk.timestamp)) ∧
      (¬ HlsShaped "https://video.bsky.app/watch/did/cid/playlist.m3u8" →
        evs = directCalls worldOk "https://video.bsky.app/watch/did/cid/playlist.m3u8"
                (outputName (lastSegment sampleUri) worldOk.timestamp) ∧
        evs.head? = some (Event.httpHead "https://video.bsky.app/watch/did/cid/playlist.m3u8") ∧
        ∀ ev ∈ evs, ev.isTool = false) :=
  have hve : VideoEmbedAt hlsEmbed hlsEmbed := Or.inl ⟨_, rfl, by decide, rfl⟩
  have hnew : ¬ DedupHit [] (lastSegment sampleUri) := by simp [DedupHit]
  ⟨hve, rfl, hnew,
    playlist_url_routing true true [] (sampleItem hlsEmbed)
      { uri := some sampleUri, embed := some hlsEmbed } sampleUri hlsEmbed hlsEmbed
      "https://video.bsky.app/watch/did/cid/playlist.m3u8" worldOk St.init
      rfl rfl rfl hve rfl (by decide) hnew⟩

/-! ## C4: platform links -/

/-- C4 at a Vimeo link. The URL of `vimeoEmbed` contains `vimeo.com` and neither `.m3u8` nor
`playlist`, `filterVideoPosts` keeps the post, and with yt-dlp available the program makes no
yt-dlp call: it sends the `HEAD` and `GET` requests of the direct download, writes the
response to the output path and counts the item as downloaded. -/
theorem vimeo_link_fetched_directly :
    ExternalEmbedAt vimeoEmbed vimeoEmbed ∧
    strIncludes "https://vimeo.com/12345" "vimeo.com" = true ∧
    isHls "https://vimeo.com/12345" = false ∧
    isVideoPost (sampleItem vimeoEmbed) = .ok true ∧
    processItem true true [] (sampleItem vimeoEmbed) worldOk St.init =
      .ok { downloadedCount := 1, skippedCount := 0, failedCount := 0, ticks := 1,
            log := [Event.httpHead "https://vimeo.com/12345",
                    Event.httpGet "https://vimeo.com/12345",
                    Event.createWriteStream "abc123_999.mp4"],
            files := ["abc123_999.mp4"], outputs := ["abc123_999.mp4"] } :=
  ⟨Or.inl ⟨_, rfl, by decide, rfl⟩, by decide, by decide, rfl, rfl⟩

/-! ## C5: YouTube links that look like HLS streams -/

/-- C5, as stated, fails: an external URL that contains both `youtube.com` and `playlist`
is handed to yt-dlp at once although ffmpeg is available; ffmpeg is never tried. -/
theorem youtube_playlist_counterexample :
    ExternalEmbedAt youtubePlaylistEmbed youtubePlaylistEmbed ∧
    strIncludes "https://www.youtube.com/playlist?list=PL1" "youtube.com" = true ∧
    strIncludes "https://www.youtube.com/playlist?list=PL1" "playlist" = true ∧
    processItem true true [] (sampleItem youtubePlaylistEmbed) worldOk St.init =
      .ok { downloadedCount := 1, skippedCount := 0, failedCount := 0, ticks := 1,
            log := [Event.ytDlp "https://www.youtube.com/playlist?list=PL1" "abc123_999.mp4"],
            files := ["abc123_999.mp4"], outputs := ["abc123_999.mp4"] } :=
  ⟨Or.inl ⟨_, rfl, by decide, rfl⟩, by decide, by decide, rfl⟩

/-- C5, amended. For an external embed (top-level, or the media of a recordWithMedia embed)
with a non-empty URL: if the URL contains `youtube.com` or `youtu.be` it is handled as a
platform link whatever else it contains, with one yt-dlp call when yt-dlp is available and
with no call and a failure when it is not, and ffmpeg is never tried; if it contains neither
of the two (as a `vimeo.com` URL does) and contains `.m3u8` or `playlist`, it is handled as an
HLS stream: ffmpeg first when available, yt-dlp after a failed ffmpeg or in its absence. -/
theorem external_url_routing (hasFfmpeg hasYtDlp : Bool) (existingFiles : List String)
    (item : FeedItem) (post : Post) (uri : String) (embed xe : Embed) (x : External)
    (u : String) (w : ItemWorld) (st : St)
    (hpost : item.post = some post) (huri : post.uri = some uri)
    (hembed : post.embed = some embed) (hxe : ExternalEmbedAt embed xe)
    (hx : xe.external = some x) (hu : x.url = some u) (hne : u ≠ "")
    (hnew : ¬ DedupHit existingFiles (lastSegment uri)) :
    ∃ st1, processItem hasFfmpeg hasYtDlp existingFiles item w st = .ok st1 ∧
      (YoutubeShaped u →
        st1.log = st.log ++
          (if hasYtDlp then [Event.ytDlp u (outputName (lastSegment uri) w.timestamp)]
           else []) ∧
        (hasYtDlp = false → st1.failedCount = st.failedCount + 1 ∧
          st1.downloadedCount = st.downloadedCount)) ∧
      (¬ YoutubeShaped u → HlsShaped u →
        st1.log = st.log ++ hlsCalls hasFfmpeg hasYtDlp w.ffmpeg.resolves u
          (outputName (lastSegment uri) w.timestamp)) := by
  have hrun := processItem_new hasFfmpeg hasYtDlp existingFiles item post uri w st hpost huri hnew
  have hext := extractUrl_external hasYtDlp w (lastSegment uri) post embed xe st hembed hxe
  refine ⟨_, hrun, ?_, ?_⟩
  · intro hy
    have hb := (youtube_iff u).2 hy
    have hres : extractUrl hasYtDlp w (lastSegment uri) post st =
        .handled (youtubeBranch hasYtDlp w (lastSegment uri) u st) := by
      rw [hext]
      simp only [extractExternal, hx, hu, truthyStr, hb]
      simp [hne]
    simp only [tryItem, hres]
    cases hasYtDlp <;> cases hr : w.ytDlp.resolves <;>
      simp [youtubeBranch, St.exec, St.countDownloaded, St.countFailed, hr]
  · intro hy hh
    have hb : (strIncludes u "youtube.com" || strIncludes u "youtu.be") = false := by
      rw [← Bool.not_eq_true, youtube_iff]
      exact hy
    have hres : extractUrl hasYtDlp w (lastSegment uri) post st = .url (some u) := by
      rw [hext]
      simp only [extractExternal, hx, hu, truthyStr, hb]
      simp [hne]
    rw [tryItem_url hasFfmpeg hasYtDlp w _ post st u hne hres, (isHls_iff u).2 hh]
    exact downloadHls_log _ _ _ _ _ _

/-- Instance of the amended C5: the YouTube playlist link, with both tools available. -/
theorem external_url_routing_witness :
    ExternalEmbedAt youtubePlaylistEmbed youtubePlaylistEmbed ∧
    ¬ DedupHit [] (lastSegment sampleUri) ∧
    YoutubeShaped "https://www.youtube.com/playlist?list=PL1" ∧
    ∃ st1, processItem true true [] (sampleItem youtubePlaylistEmbed) worldOk St.init
        = .ok st1 ∧
      st1.log = St.init.log ++
        [Event.ytDlp "https://www.youtube.com/playlist?list=PL1"
          (outputName (lastSegment sampleUri) worldOk.timestamp)] :=
  have hxe : ExternalEmbedAt youtubePlaylistEmbed youtubePlaylistEmbed :=
    Or.inl ⟨_, rfl, by decide, rfl⟩
  have hnew : ¬ DedupHit [] (lastSegment sampleUri) := by simp [DedupHit]
  have hy : YoutubeShaped "https://www.youtube.com/playlist?list=PL1" :=
    (youtube_iff _).1 (by decide)
  have h := external_url_routing true true [] (sampleItem youtubePlaylistEmbed)
    { uri := some sampleUri, embed := some youtubePlaylistEmbed } sampleUri
    youtubePlaylistEmbed youtubePlaylistEmbed
    { isVideo := none, url := some "https://www.youtube.com/playlist?list=PL1" }
    "https://www.youtube.com/playlist?list=PL1" worldOk St.init
    rfl rfl rfl hxe rfl rfl (by decide) hnew
  ⟨hxe, hnew, hy, h.elim fun st1 hst1 => ⟨st1, hst1.1, (hst1.2.1 hy).1⟩⟩

/-! ## C6: the fallback chain of the HLS branch -/

/-- The HLS branch after the URL extraction. For an item that is no dedup hit and whose URL
extraction reaches the download step with a URL containing `.m3u8` or `playlist`, the
iteration returns with the calls and counter changes of lines 425-539, for every availability
and outcome of the tools. -/
theorem hls_order_of_extractUrl (hasFfmpeg hasYtDlp : Bool) (existingFiles : List String)
    (item : FeedItem) (post : Post) (uri u : String) (w : ItemWorld) (st : St)
    (hpost : item.post = some post) (huri : post.uri = some uri)
    (hnew : ¬ DedupHit existingFiles (lastSegment uri))
    (hres : extractUrl hasYtDlp w (lastSegment uri) post st = .url (some u))
    (hhls : HlsShaped u) :
    ∃ st1, processItem hasFfmpeg hasYtDlp existingFiles item w st = .ok st1 ∧
      st1.skippedCount = st.skippedCount ∧
      (hasFfmpeg = true → w.ffmpeg.resolves = true →
        st1.log = st.log ++ [Event.ffmpeg u (outputName (lastSegment uri) w.timestamp)] ∧
        st1.downloadedCount = st.downloadedCount + 1 ∧ st1.failedCount = st.failedCount) ∧
      (hasFfmpeg = true → w.ffmpeg.resolves = false → hasYtDlp = true →
        st1.log = st.log ++ [Event.ffmpeg u (outputName (lastSegment uri) w.timestamp),
                             Event.ytDlp u (outputName (lastSegment uri) w.timestamp)] ∧
        (w.ytDlp.resolves = true →
          st1.downloadedCount = st.downloadedCount + 1 ∧ st1.failedCount = st.failedCount) ∧
        (w.ytDlp.resolves = false →
          st1.downloadedCount = st.downloadedCount ∧ st1.failedCount = st.failedCount + 1)) ∧
      (hasFfmpeg = true → w.ffmpeg.resolves = false → hasYtDlp = false →
        st1.log = st.log ++ [Event.ffmpeg u (outputName (lastSegment uri) w.timestamp)] ∧
        st1.downloadedCount = st.downloadedCount ∧ st1.failedCount = st.failedCount + 1) ∧
      (hasFfmpeg = false → hasYtDlp = true →
        st1.log = st.log ++ [Event.ytDlp u (outputName (lastSegment uri) w.timestamp)] ∧
        (w.ytDlp.resolves = true →
          st1.downloadedCount = st.downloadedCount + 1 ∧ st1.failedCount = st.failedCount) ∧
        (w.ytDlp.resolves = false →
          st1.downloadedCount = st.downloadedCount ∧ st1.failedCount = st.failedCount + 1)) ∧
      (hasFfmpeg = false → hasYtDlp = false →
        st1.log = st.log ∧
        st1.downloadedCount = st.downloadedCount ∧ st1.failedCount = st.failedCount + 1) := by
  have hne := ne_empty_of_hlsShaped u hhls
  have hrun := processItem_new hasFfmpeg hasYtDlp existingFiles item post uri w st hpost huri hnew
  rw [tryItem_url hasFfmpeg hasYtDlp w _ post st u hne hres, (isHls_iff u).2 hhls] at hrun
  refine ⟨_, hrun, ?_⟩
  simp only [if_true]
  cases hasFfmpeg <;> cases hasYtDlp <;> cases hr : w.ytDlp.resolves <;>
    cases hr2 : w.ffmpeg.resolves <;>
    simp [downloadHls, St.exec, St.countDownloaded, St.countFailed, hr, hr2]

theorem extractUrl_of_resolvedUrl (hasYtDlp : Bool) (w : ItemWorld) (postId : String)
    (post : Post) (embed : Embed) (u : String) (st : St) (hembed : post.embed = some embed)
    (hres : ResolvedUrl embed u) :
    extractUrl hasYtDlp w postId post st = .url (some u) := by
  obtain ⟨hne, ⟨ve, hve, hurl⟩ | ⟨xe, x, hxe, hx, hu, hy⟩⟩ := hres
  · rw [extractUrl_video hasYtDlp w postId post embed ve st hembed hve]
    rcases hurl with hpl | ⟨hpl, v, hv, hvu⟩
    · rw [videoUrlOf_playlist ve u hpl hne]
    · rcases hpl with hpl | hpl <;> simp [videoUrlOf, hpl, hv, hvu, truthyStr, hne]
  · have hb : (strIncludes u "youtube.com" || strIncludes u "youtu.be") = false := by
      rw [← Bool.not_eq_true, youtube_iff]
      exact hy
    rw [extractUrl_external hasYtDlp w postId post embed xe st hembed hxe]
    simp only [extractExternal, hx, hu, truthyStr, hb]
    simp [hne]

/-- C6, as stated, fails: the URL of this external embed contains `.m3u8` and `youtu.be`.
With both tools available the program calls yt-dlp once and ffmpeg not at all; with only
ffmpeg available it makes no call and counts the item as failed. -/
theorem youtube_hls_link_counterexample :
    ExternalEmbedAt youtubeHlsEmbed youtubeHlsEmbed ∧
    isHls "https://youtu.be/live/stream.m3u8" = true ∧
    processItem true true [] (sampleItem youtubeHlsEmbed) worldOk St.init =
      .ok { downloadedCount := 1, skippedCount := 0, failedCount := 0, ticks := 1,
            log := [Event.ytDlp "https://youtu.be/live/stream.m3u8" "abc123_999.mp4"],
            files := ["abc123_999.mp4"], outputs := ["abc123_999.mp4"] } ∧
    processItem true false [] (sampleItem youtubeHlsEmbed) worldOk St.init =
      .ok { downloadedCount := 0, skippedCount := 0, failedCount := 1, ticks := 1,
            log := [], files := [], outputs := [] } :=
  ⟨Or.inl ⟨_, rfl, by decide, rfl⟩, by decide, rfl, rfl⟩

/-- C6, amended. For an item that is no dedup hit and is fetched from a URL containing
`.m3u8` or `playlist`, where the URL is the playlist or `video.url` of its video embed or
the URL of its external embed and does not name YouTube in the external case, the iteration
returns without touching `skippedCount`, and for every availability and outcome of the tools:
with ffmpeg available it is called first and once; when it resolves nothing else is called
and the item is counted as downloaded; when it rejects, yt-dlp is called once if available,
and the item is downloaded or failed as yt-dlp resolves or not; without yt-dlp the item is
failed after the one ffmpeg call; with only yt-dlp available there is one yt-dlp call and no
ffmpeg call; with neither tool there is no call and the item is failed. -/
theorem hls_fallback_order (hasFfmpeg hasYtDlp : Bool) (existingFiles : List String)
    (item : FeedItem) (post : Post) (uri : String) (embed : Embed) (u : String)
    (w : ItemWorld) (st : St)
    (hpost : item.post = some post) (huri : post.uri = some uri)
    (hembed : post.embed = some embed)
    (hnew : ¬ DedupHit existingFiles (lastSegment uri))
    (hres : ResolvedUrl embed u) (hhls : HlsShaped u) :
    ∃ st1, processItem hasFfmpeg hasYtDlp existingFiles item w st = .ok st1 ∧
      st1.skippedCount = st.skippedCount ∧
      (hasFfmpeg = true → w.ffmpeg.resolves = true →
        st1.log = st.log ++ [Event.ffmpeg u (outputName (lastSegment uri) w.timestamp)] ∧
        st1.downloadedCount = st.downloadedCount + 1 ∧ st1.failedCount = st.failedCount) ∧
      (hasFfmpeg = true → w.ffmpeg.resolves = false → hasYtDlp = true →
        st1.log = st.log ++ [Event.ffmpeg u (outputName (lastSegment uri) w.timestamp),
                             Event.ytDlp u (outputName (lastSegment uri) w.timestamp)] ∧
        (w.ytDlp.resolves = true →
          st1.downloadedCount = st.downloadedCount + 1 ∧ st1.failedCount = st.failedCount) ∧
        (w.ytDlp.resolves = false →
          st1.downloadedCount = st.downloadedCount ∧ st1.failedCount = st.failedCount + 1)) ∧
      (hasFfmpeg = true → w.ffmpeg.resolves = false → hasYtDlp = false →
        st1.log = st.log ++ [Event.ffmpeg u (outputName (lastSegment uri) w.timestamp)] ∧
        st1.downloadedCount = st.downloadedCount ∧ st1.failedCount = st.failedCount + 1) ∧
      (hasFfmpeg = false → hasYtDlp = true →
        st1.log = st.log ++ [Event.ytDlp u (outputName (lastSegment uri) w.timestamp)] ∧
        (w.ytDlp.resolves = true →
          st1.downloadedCount = st.downloadedCount + 1 ∧ st1.failedCount = st.failedCount) ∧
        (w.ytDlp.resolves = false →
          st1.downloadedCount = st.downloadedCount ∧ st1.failedCount = st.failedCount + 1)) ∧
      (hasFfmpeg = false → hasYtDlp = false →
        st1.log = st.log ∧
        st1.downloadedCount = st.downloadedCount ∧ st1.failedCount = st.failedCount + 1) :=
  hls_order_of_extractUrl hasFfmpeg hasYtDlp existingFiles item post uri u w st hpost huri hnew
    (extractUrl_of_resolvedUrl hasYtDlp w (lastSegment uri) post embed u st hembed hres) hhls

/-- Instance of the amended C6: ffmpeg rejects the playlist of `hlsEmbed` and yt-dlp takes
over. -/
theorem hls_fallback_order_witness :
    ¬ DedupHit [] (lastSegment sampleUri) ∧
    ResolvedUrl hlsEmbed "https://video.bsky.app/watch/did/cid/playlist.m3u8" ∧
    HlsShaped "https://video.bsky.app/watch/did/cid/playlist.m3u8" ∧
    ∃ st1, processItem true true [] (sampleItem hlsEmbed)
        { worldOk with ffmpeg := ⟨false, false⟩ } St.init = .ok st1 ∧
      st1.log = St.init.log ++
        [Event.ffmpeg "https://video.bsky.app/watch/did/cid/playlist.m3u8"
           (outputName (lastSegment sampleUri) 999),
         Event.ytDlp "https://video.bsky.app/watch/did/cid/playlist.m3u8"
           (outputName (lastSegment sampleUri) 999)] ∧
      st1.downloadedCount = St.init.downloadedCount + 1 :=
  have hnew : ¬ DedupHit [] (lastSegment sampleUri) := by simp [DedupHit]
  have hres : ResolvedUrl hlsEmbed "https://video.bsky.app/watch/did/cid/playlist.m3u8" :=
    ⟨by decide, Or.inl ⟨hlsEmbed, Or.inl ⟨_, rfl, by decide, rfl⟩, Or.inl rfl⟩⟩
  have hh : HlsShaped "https://video.bsky.app/watch/did/cid/playlist.m3u8" :=
    (isHls_iff _).1 (by decide)
  have h := hls_fallback_order true true [] (sampleItem hlsEmbed)
    { uri := some sampleUri, embed := some hlsEmbed } sampleUri hlsEmbed
    "https://video.bsky.app/watch/did/cid/playlist.m3u8"
    { worldOk with ffmpeg := ⟨false, false⟩ } St.init rfl rfl rfl hnew hres hh
  ⟨hnew, hres, hh, h.elim fun st1 hst1 =>
    ⟨st1, hst1.1, (hst1.2.2.2.1 rfl rfl rfl).1, ((hst1.2.2.2.1 rfl rfl rfl).2.1 rfl).1⟩⟩

/-! ## C7: the dedup check -/

/-- C7. For an item with a string `post.uri` whose last `/`-separated segment is `postId`,
one iteration of the loop returns; it increments `skippedCount` if and only if some file
name of the listing read at the start starts with `postId` followed by `_` and ends with
`.mp4`, and in that case it makes no call to a tool or to the network, creates no file and
leaves the other two counters alone. -/
theorem skipped_iff_dedupHit (hasFfmpeg hasYtDlp : Bool) (existingFiles : List String)
    (item : FeedItem) (post : Post) (uri postId : String) (w : ItemWorld) (st : St)
    (hpost : item.post = some post) (huri : post.uri = some uri)
    (hseg : IsLastSegment uri postId) :
    ∃ st1, processItem hasFfmpeg hasYtDlp existingFiles item w st = .ok st1 ∧
      (st1.skippedCount = st.skippedCount + 1 ↔ DedupHit existingFiles postId) ∧
      (¬ DedupHit existingFiles postId → st1.skippedCount = st.skippedCount) ∧
      (DedupHit existingFiles postId →
        st1.log = st.log ∧ st1.files = st.files ∧
        st1.downloadedCount = st.downloadedCount ∧ st1.failedCount = st.failedCount) := by
  refine ⟨_, processItem_ok _ _ _ _ _ _ _ _ hpost huri, ?_⟩
  rw [lastSegment_of_isLastSegment uri postId hseg]
  by_cases hit : DedupHit existingFiles postId
  · have h := (alreadyDownloaded_iff existingFiles postId).2 hit
    simp [h, hit, St.countSkipped]
  · have h : alreadyDownloaded existingFiles postId = false := by
      rw [← Bool.not_eq_true, alreadyDownloaded_iff]
      exact hit
    have hs := (countedOnce_tryItem hasFfmpeg hasYtDlp w postId post st).1
    simp [h, hit, hs]

/-- Instance of C7: the directory holds `abc123_999.mp4` and the post identifier is
`abc123`. -/
theorem skipped_iff_dedupHit_witness :
    IsLastSegment sampleUri "abc123" ∧
    ∃ st1, processItem true true ["abc123_999.mp4"] (sampleItem hlsEmbed) worldOk St.init
        = .ok st1 ∧
      (st1.skippedCount = St.init.skippedCount + 1 ↔ DedupHit ["abc123_999.mp4"] "abc123") ∧
      (¬ DedupHit ["abc123_999.mp4"] "abc123" → st1.skippedCount = St.init.skippedCount) ∧
      (DedupHit ["abc123_999.mp4"] "abc123" →
        st1.log = St.init.log ∧ st1.files = St.init.files ∧
        st1.downloadedCount = St.init.downloadedCount ∧
        st1.failedCount = St.init.failedCount) :=
  have hseg : IsLastSegment sampleUri "abc123" :=
    ⟨by decide, Or.inr ⟨"at://did:plc:alice/app.bsky.feed.post".data, by decide⟩⟩
  ⟨hseg, skipped_iff_dedupHit true true ["abc123_999.mp4"] (sampleItem hlsEmbed)
    { uri := some sampleUri, embed := some hlsEmbed } sampleUri "abc123" worldOk St.init
    rfl rfl hseg⟩

/-! ## C9: the tally -/

/-- C9. For a list of posts that each have a string `post.uri`, for every availability of
the tools and every answer of the outside world, each iteration returns having raised exactly
one of `downloadedCount`, `skippedCount` and `failedCount` by one, the loop runs to its end,
and there the three counters add up to the number of items; so they do in every state
`downloadVideosInteractive` reaches the summary with. -/
theorem counters_sum_to_items (hasFfmpeg hasYtDlp : Bool) (existingFiles : List String)
    (videoPosts : List (FeedItem × ItemWorld)) (h : HaveUris videoPosts) :
    (∀ p ∈ videoPosts, ∀ st, ∃ st1,
      processItem hasFfmpeg hasYtDlp existingFiles p.1 p.2 st = .ok st1 ∧
      OneCounterUp st st1) ∧
    (∃ st, downloadLoop hasFfmpeg hasYtDlp existingFiles videoPosts St.init = .ok st ∧
      st.downloadedCount + st.skippedCount + st.failedCount = videoPosts.length) ∧
    (∀ proceed st,
      downloadVideosInteractive hasFfmpeg hasYtDlp proceed existingFiles videoPosts
        = .ok (some st) →
      st.downloadedCount + st.skippedCount + st.failedCount = videoPosts.length) := by
  obtain ⟨st, hst, hsum, -⟩ :=
    downloadLoop_sum hasFfmpeg hasYtDlp existingFiles videoPosts h St.init
  have hsum0 : st.downloadedCount + st.skippedCount + st.failedCount = videoPosts.length := by
    simpa [St.init] using hsum
  refine ⟨?_, ⟨st, hst, hsum0⟩, ?_⟩
  · intro p hp st0
    obtain ⟨post, uri, hpost, huri⟩ := h p hp
    obtain ⟨st1, h1, h2, -⟩ :=
      oneCounterUp_processItem hasFfmpeg hasYtDlp existingFiles p.1 post uri p.2 st0 hpost huri
    exact ⟨st1, h1, h2⟩
  · intro proceed st2 hrun
    unfold downloadVideosInteractive at hrun
    rw [hst] at hrun
    split_ifs at hrun
    · simp at hrun
    · simp only [Except.ok.injEq, Option.some.injEq] at hrun
      rw [← hrun]
      exact hsum0

/-- Instance of C9: a list of two posts, a quote post with a video and an external link. -/
theorem counters_sum_to_items_witness :
    HaveUris [(sampleItem quoteEmbed, worldOk), (sampleItem mp4Embed, worldOk)] ∧
    ∃ st, downloadLoop true false []
        [(sampleItem quoteEmbed, worldOk), (sampleItem mp4Embed, worldOk)] St.init = .ok st ∧
      st.downloadedCount + st.skippedCount + st.failedCount = 2 :=
  have h : HaveUris [(sampleItem quoteEmbed, worldOk), (sampleItem mp4Embed, worldOk)] := by
    intro p hp
    simp only [List.mem_cons, List.mem_singleton, List.not_mem_nil, or_false] at hp
    rcases hp with rfl | rfl <;> exact ⟨_, _, rfl, rfl⟩
  ⟨h, (counters_sum_to_items true false []
    [(sampleItem quoteEmbed, worldOk), (sampleItem mp4Embed, worldOk)] h).2.1⟩

/-! ## Facts about repeated runs -/

theorem outputName_dedupHit (files : List String) (postId : String) (timestamp : Nat)
    (h : outputName postId timestamp ∈ files) : DedupHit files postId := by
  refine ⟨_, h, ?_, ?_⟩
  · simp only [outputName, String.data_append]
    rw [List.append_assoc (postId.data ++ "_".data)]
    exact List.prefix_append _ _
  · simp only [outputName, String.data_append]
    exact List.suffix_append _ _

theorem dedupHit_mono (files1 files2 : List String) (postId : String)
    (hsub : ∀ f ∈ files1, f ∈ files2) (h : DedupHit files1 postId) : DedupHit files2 postId := by
  obtain ⟨f, hf, hp⟩ := h
  exact ⟨f, hsub f hf, hp⟩

theorem processItem_inv (hasFfmpeg hasYtDlp : Bool) (existingFiles : List String)
    (item : FeedItem) (w : ItemWorld) (st st1 : St)
    (h : processItem hasFfmpeg hasYtDlp existingFiles item w st = .ok st1) :
    ∃ post uri, item.post = some post ∧ post.uri = some uri := by
  unfold processItem at h
  split at h
  · simp at h
  · split at h
    · simp at h
    · exact ⟨_, _, by assumption, by assumption⟩

theorem processItem_cases (hasFfmpeg hasYtDlp : Bool) (existingFiles : List String)
    (item : FeedItem) (post : Post) (uri : String) (w : ItemWorld) (st : St)
    (hpost : item.post = some post) (huri : post.uri = some uri) :
    (DedupHit existingFiles (lastSegment uri) ∧
      processItem hasFfmpeg hasYtDlp existingFiles item w st = .ok st.countSkipped) ∨
    (¬ DedupHit existingFiles (lastSegment uri) ∧
      ∃ st1, processItem hasFfmpeg hasYtDlp existingFiles item w st = .ok st1 ∧
        CountedOnce (outputName (lastSegment uri) w.timestamp) st st1) := by
  by_cases hit : DedupHit existingFiles (lastSegment uri)
  · left
    refine ⟨hit, ?_⟩
    rw [processItem_ok _ _ _ _ _ _ _ _ hpost huri, (alreadyDownloaded_iff _ _).2 hit]
    rfl
  · right
    exact ⟨hit, _, processItem_new _ _ _ _ _ _ _ _ hpost huri hit, countedOnce_tryItem _ _ _ _ _ _⟩

theorem downloadLoop_outputs (hasFfmpeg hasYtDlp : Bool) (existingFiles : List String)
    (videoPosts : List (FeedItem × ItemWorld)) :
    ∀ st st1, downloadLoop hasFfmpeg hasYtDlp existingFiles videoPosts st = .ok st1 →
      st.failedCount ≤ st1.failedCount ∧ (∀ o ∈ st.outputs, o ∈ st1.outputs) ∧
      (st1.failedCount = st.failedCount → ∀ p ∈ videoPosts, ∃ post uri,
        p.1.post = some post ∧ post.uri = some uri ∧
        (DedupHit existingFiles (lastSegment uri) ∨
         outputName (lastSegment uri) p.2.timestamp ∈ st1.outputs)) := by
  induction videoPosts with
  | nil =>
    intro st st1 h
    simp only [downloadLoop, Except.ok.injEq] at h
    subst h
    exact ⟨le_refl _, fun o ho => ho, fun _ p hp => absurd hp (List.not_mem_nil p)⟩
  | cons p rest ih =>
    intro st st1 h
    obtain ⟨item, w⟩ := p
    rw [downloadLoop] at h
    cases hstep : processItem hasFfmpeg hasYtDlp existingFiles item w st with
    | error e => rw [hstep] at h; simp at h
    | ok stm =>
      rw [hstep] at h
      simp only at h
      obtain ⟨hle, hout, hall⟩ := ih stm st1 h
      obtain ⟨post, uri, hpost, huri⟩ := processItem_inv _ _ _ _ _ _ _ hstep
      rcases processItem_cases hasFfmpeg hasYtDlp existingFiles item post uri w st hpost huri
        with ⟨hit, hrun⟩ | ⟨-, st2, hrun, -, -, -, -, hcount⟩
      · rw [hstep, Except.ok.injEq] at hrun
        subst hrun
        refine ⟨hle, hout, ?_⟩
        intro hf q hq
        rcases List.mem_cons.1 hq with rfl | hq
        · exact ⟨post, uri, hpost, huri, Or.inl hit⟩
        · exact hall hf q hq
      · rw [hstep, Except.ok.injEq] at hrun
        subst hrun
        rcases hcount with ⟨-, hfail, houts⟩ | ⟨-, hfail, houts⟩
        · refine ⟨by omega, fun o ho => hout o (by simp [houts, ho]), ?_⟩
          intro hf q hq
          rcases List.mem_cons.1 hq with rfl | hq
          · exact ⟨post, uri, hpost, huri, Or.inr (hout _ (by simp [houts]))⟩
          · exact hall (by omega) q hq
        · refine ⟨by omega, fun o ho => hout o (by simpa [houts] using ho), ?_⟩
          intro hf
          omega

theorem downloadLoop_all_hits (hasFfmpeg hasYtDlp : Bool) (existingFiles : List String)
    (videoPosts : List (FeedItem × ItemWorld))
    (hall : ∀ p ∈ videoPosts, ∃ post uri, p.1.post = some post ∧ post.uri = some uri ∧
      DedupHit existingFiles (lastSegment uri)) :
    ∀ st, ∃ st1, downloadLoop hasFfmpeg hasYtDlp existingFiles videoPosts st = .ok st1 ∧
      st1.downloadedCount = st.downloadedCount ∧ st1.failedCount = st.failedCount ∧
      st1.skippedCount = st.skippedCount + videoPosts.length ∧ st1.log = st.log ∧
      st1.files = st.files := by
  induction videoPosts with
  | nil => intro st; exact ⟨st, rfl, rfl, rfl, rfl, rfl, rfl⟩
  | cons p rest ih =>
    intro st
    obtain ⟨item, w⟩ := p
    obtain ⟨post, uri, hpost, huri, hit⟩ := hall (item, w) (by simp)
    have hstep : processItem hasFfmpeg hasYtDlp existingFiles item w st = .ok st.countSkipped := by
      rw [processItem_ok _ _ _ _ _ _ _ _ hpost huri, (alreadyDownloaded_iff _ _).2 hit]
      rfl
    obtain ⟨st1, hrun, h1, h2, h3, h4, h5⟩ := ih (fun q hq => hall q (by simp [hq])) st.countSkipped
    refine ⟨st1, ?_, h1, h2, ?_, h4, h5⟩
    · simp only [downloadLoop, hstep, hrun]
    · simp only [h3, St.countSkipped, List.length_cons]
      omega

/-! ## C8: a second run skips what the first one fetched -/

/-- C8. The file name `postId_timestamp.mp4` passes the dedup test for `postId`, for every
`postId` and `timestamp`. Hence, if a first run reached its summary with no failed item, and
the directory listing of a second run holds the files the first run found and the output
files of its downloads, then a second run over the same posts (whatever the tools and the
outside world do, and unless it is cancelled at the prompt) reaches the summary with no
download, no failure, no call made, and every item skipped. -/
theorem rerun_skips_everything (hasFfmpeg1 hasYtDlp1 proceed1 hasFfmpeg2 hasYtDlp2 proceed2 : Bool)
    (files1 files2 : List String) (run1 run2 : List (FeedItem × ItemWorld)) (st1 : St)
    (hrun1 : downloadVideosInteractive hasFfmpeg1 hasYtDlp1 proceed1 files1 run1 = .ok (some st1))
    (hcomplete : st1.failedCount = 0)
    (hkept : ∀ f ∈ files1, f ∈ files2) (houtputs : ∀ f ∈ st1.outputs, f ∈ files2)
    (hsame : run2.map Prod.fst = run1.map Prod.fst)
    (hgo : (hasFfmpeg2 || hasYtDlp2 || proceed2) = true) :
    (∀ postId timestamp, DedupHit [outputName postId timestamp] postId) ∧
    ∃ st2, downloadVideosInteractive hasFfmpeg2 hasYtDlp2 proceed2 files2 run2 = .ok (some st2) ∧
      st2.downloadedCount = 0 ∧ st2.skippedCount = run2.length ∧ st2.failedCount = 0 ∧
      st2.log = [] := by
  refine ⟨fun postId timestamp => outputName_dedupHit _ postId timestamp (by simp), ?_⟩
  have hloop1 : downloadLoop hasFfmpeg1 hasYtDlp1 files1 run1 St.init = .ok st1 := by
    unfold downloadVideosInteractive at hrun1
    split_ifs at hrun1
    · simp at hrun1
    · cases hl : downloadLoop hasFfmpeg1 hasYtDlp1 files1 run1 St.init with
      | error e => rw [hl] at hrun1; simp at hrun1
      | ok st =>
        rw [hl] at hrun1
        simp only [Except.ok.injEq, Option.some.injEq] at hrun1
        rw [hrun1]
  obtain ⟨-, -, hall⟩ := downloadLoop_outputs hasFfmpeg1 hasYtDlp1 files1 run1 St.init st1 hloop1
  have hhits : ∀ p ∈ run2, ∃ post uri, p.1.post = some post ∧ post.uri = some uri ∧
      DedupHit files2 (lastSegment uri) := by
    intro p hp
    have hmem : p.1 ∈ run1.map Prod.fst := by
      rw [← hsame]
      exact List.mem_map_of_mem _ hp
    obtain ⟨q, hq, hqp⟩ := List.mem_map.1 hmem
    obtain ⟨post, uri, hpost, huri, hit | hout⟩ := hall (by simp [hcomplete, St.init]) q hq
    · exact ⟨post, uri, hqp ▸ hpost, huri, dedupHit_mono files1 files2 _ hkept hit⟩
    · exact ⟨post, uri, hqp ▸ hpost, huri, outputName_dedupHit files2 _ _ (houtputs _ hout)⟩
  obtain ⟨st2, hloop2, h1, h2, h3, h4, -⟩ :=
    downloadLoop_all_hits hasFfmpeg2 hasYtDlp2 files2 run2 hhits St.init
  refine ⟨st2, ?_, by simpa [St.init] using h1, by simpa [St.init] using h3,
    by simpa [St.init] using h2, by simpa [St.init] using h4⟩
  unfold downloadVideosInteractive
  rw [hloop2]
  cases hasFfmpeg2 <;> cases hasYtDlp2 <;> cases proceed2 <;> simp at hgo ⊢

/-- Instance of C8: the first run fetches the video of one post with ffmpeg, the second run
finds `abc123_999.mp4` in the directory. -/
theorem rerun_skips_everything_witness :
    downloadVideosInteractive true true true [] [(sampleItem hlsEmbed, worldOk)] =
      .ok (some { downloadedCount := 1, skippedCount := 0, failedCount := 0, ticks := 1,
                  log := [Event.ffmpeg "https://video.bsky.app/watch/did/cid/playlist.m3u8"
                            "abc123_999.mp4"],
                  files := ["abc123_999.mp4"], outputs := ["abc123_999.mp4"] }) ∧
    ∃ st2, downloadVideosInteractive true false false ["abc123_999.mp4"]
        [(sampleItem hlsEmbed, { worldOk with timestamp := 2000 })] = .ok (some st2) ∧
      st2.downloadedCount = 0 ∧ st2.skippedCount = 1 ∧ st2.failedCount = 0 ∧ st2.log = [] :=
  ⟨rfl, (rerun_skips_everything true true true true false false [] ["abc123_999.mp4"]
    [(sampleItem hlsEmbed, worldOk)]
    [(sampleItem hlsEmbed, { worldOk with timestamp := 2000 })]
    { downloadedCount := 1, skippedCount := 0, failedCount := 0, ticks := 1,
      log := [Event.ffmpeg "https://video.bsky.app/watch/did/cid/playlist.m3u8"
                "abc123_999.mp4"],
      files := ["abc123_999.mp4"], outputs := ["abc123_999.mp4"] }
    rfl rfl (by simp) (by simp) rfl rfl).2⟩

/-! ## C10: files left by failed items -/

theorem youtubeBranch_files (hasYtDlp : Bool) (w : ItemWorld) (postId videoUrl : String)
    (st : St) (hw : LeavesNothingOnFailure w)
    (hf : (youtubeBranch hasYtDlp w postId videoUrl st).failedCount = st.failedCount + 1) :
    (youtubeBranch hasYtDlp w postId videoUrl st).files = st.files := by
  obtain ⟨hy, -, -⟩ := hw
  unfold youtubeBranch at hf ⊢
  cases hasYtDlp <;> cases hr : w.ytDlp.resolves <;>
    simp [St.exec, St.countDownloaded, St.countFailed, hr] at hf ⊢
  simp [hy hr]

theorem downloadHls_files (hasFfmpeg hasYtDlp : Bool) (w : ItemWorld) (videoUrl out : String)
    (st : St) (hw : LeavesNothingOnFailure w)
    (hf : (downloadHls hasFfmpeg hasYtDlp w videoUrl out st).failedCount = st.failedCount + 1) :
    (downloadHls hasFfmpeg hasYtDlp w videoUrl out st).files = st.files := by
  obtain ⟨hy, hg, -⟩ := hw
  unfold downloadHls at hf ⊢
  cases hasFfmpeg <;> cases hasYtDlp <;> cases hr : w.ytDlp.resolves <;>
    cases hr2 : w.ffmpeg.resolves <;>
    simp [St.exec, St.countDownloaded, St.countFailed, hr, hr2] at hf ⊢ <;>
    simp [hy, hg, hr, hr2]

theorem downloadDirect_files (w : ItemWorld) (videoUrl out : String) (st : St)
    (hw : LeavesNothingOnFailure w)
    (hf : (downloadDirect w videoUrl out st).failedCount = st.failedCount + 1) :
    (downloadDirect w videoUrl out st).files = st.files := by
  obtain ⟨-, -, hp⟩ := hw
  unfold downloadDirect at hf ⊢
  cases hh : w.headOk <;> cases hg : w.getOk <;> cases hwr : w.write <;>
    simp [St.call, St.writeStream, St.countDownloaded, St.countFailed, hh, hg, hwr] at hf ⊢
  exact hp hwr

theorem tryItem_files (hasFfmpeg hasYtDlp : Bool) (w : ItemWorld) (postId : String)
    (post : Post) (st : St) (hw : LeavesNothingOnFailure w)
    (hf : (tryItem hasFfmpeg hasYtDlp w postId post st).failedCount = st.failedCount + 1) :
    (tryItem hasFfmpeg hasYtDlp w postId post st).files = st.files := by
  unfold tryItem at hf ⊢
  split at hf
  · rfl
  · rename_i st1 h
    obtain ⟨u, rfl⟩ := extractUrl_handled _ _ _ _ _ _ h
    exact youtubeBranch_files _ _ _ _ _ hw hf
  · rfl
  · split_ifs at hf ⊢
    · exact downloadHls_files _ _ _ _ _ _ hw hf
    · exact downloadDirect_files _ _ _ _ hw hf
    · rfl

theorem downloadHls_keeps_output (hasYtDlp : Bool) (w : ItemWorld) (videoUrl out : String)
    (st : St) (hleft : w.ffmpeg.leavesOutput = true) :
    out ∈ (downloadHls true hasYtDlp w videoUrl out st).files := by
  unfold downloadHls
  cases hasYtDlp <;> cases hr : w.ytDlp.resolves <;> cases hl : w.ytDlp.leavesOutput <;>
    cases hr2 : w.ffmpeg.resolves <;>
    simp [St.exec, St.countDownloaded, St.countFailed, hr, hl, hr2, hleft]

/-- C10 at a failed ffmpeg run. ffmpeg rejects after writing part of the output and yt-dlp
is not installed: the run counts the item as failed and removes nothing, so the file stays
at its output path `abc123_999.mp4`. A second run that finds this file in the directory,
with both tools installed and every call succeeding, takes the item for already downloaded:
it skips it and makes no call, although line 624 advises to run the program again to retry
failed downloads. -/
theorem failed_download_blocks_retry :
    downloadVideosInteractive true false true []
        [(sampleItem hlsEmbed,
          { worldOk with ffmpeg := { resolves := false, leavesOutput := true } })] =
      .ok (some { downloadedCount := 0, skippedCount := 0, failedCount := 1, ticks := 1,
                  log := [Event.ffmpeg "https://video.bsky.app/watch/did/cid/playlist.m3u8"
                            "abc123_999.mp4"],
                  files := ["abc123_999.mp4"], outputs := [] }) ∧
    alreadyDownloaded ["abc123_999.mp4"] (lastSegment sampleUri) = true ∧
    downloadVideosInteractive true true true ["abc123_999.mp4"]
        [(sampleItem hlsEmbed, worldOk)] =
      .ok (some { downloadedCount := 0, skippedCount := 1, failedCount := 0, ticks := 1,
                  log := [], files := [], outputs := [] }) :=
  ⟨rfl, by decide, rfl⟩

/-- What one iteration does to the files. It removes no file and adds none but at the output
path of the item. When no failing call of the outside world leaves a file behind, an item
counted as failed adds no file at all. When the extracted URL is fetched by the direct
download and the `HEAD` or the `GET` request is rejected (as by HTTP 404), the item is
counted as failed, the write stream is never opened and no file is added. -/
theorem failed_item_files (hasFfmpeg hasYtDlp : Bool) (existingFiles : List String)
    (item : FeedItem) (post : Post) (uri : String) (w : ItemWorld) (st : St)
    (hpost : item.post = some post) (huri : post.uri = some uri) :
    ∃ st1, processItem hasFfmpeg hasYtDlp existingFiles item w st = .ok st1 ∧
      (∃ new, st1.files = st.files ++ new ∧
        ∀ f ∈ new, f = outputName (lastSegment uri) w.timestamp) ∧
      (LeavesNothingOnFailure w → st1.failedCount = st.failedCount + 1 →
        st1.files = st.files) ∧
      (∀ u, ¬ DedupHit existingFiles (lastSegment uri) →
        extractUrl hasYtDlp w (lastSegment uri) post st = .url (some u) → u ≠ "" →
        ¬ HlsShaped u → (w.headOk = false ∨ w.getOk = false) →
        st1.failedCount = st.failedCount + 1 ∧ st1.downloadedCount = st.downloadedCount ∧
        st1.files = st.files ∧
        st1.log = st.log ++ directCalls w u (outputName (lastSegment uri) w.timestamp) ∧
        Event.createWriteStream (outputName (lastSegment uri) w.timestamp) ∉
          directCalls w u (outputName (lastSegment uri) w.timestamp)) := by
  rcases processItem_cases hasFfmpeg hasYtDlp existingFiles item post uri w st hpost huri
    with ⟨hit, hrun⟩ | ⟨hnew, st1, hrun, hcount⟩
  · refine ⟨_, hrun, ⟨[], by simp [St.countSkipped]⟩, fun _ _ => rfl, ?_⟩
    intro u hn
    exact absurd hit hn
  · have hst1 : st1 = tryItem hasFfmpeg hasYtDlp w (lastSegment uri) post st := by
      have h := processItem_new hasFfmpeg hasYtDlp existingFiles item post uri w st hpost huri hnew
      rw [hrun, Except.ok.injEq] at h
      exact h
    refine ⟨st1, hrun, hcount.2.2.2.1, ?_, ?_⟩
    · intro hw hf
      rw [hst1] at hf ⊢
      exact tryItem_files _ _ _ _ _ _ hw hf
    · intro u _ hres hne hh hrej
      have hb : isHls u = false := by
        rw [← Bool.not_eq_true, isHls_iff]
        exact hh
      rw [hst1, tryItem_url hasFfmpeg hasYtDlp w _ post st u hne hres, hb]
      simp only [Bool.false_eq_true, if_false]
      refine ⟨?_, ?_, ?_, downloadDirect_log _ _ _ _, ?_⟩
      · rcases hrej with h | h <;> cases hh2 : w.headOk <;>
          simp [downloadDirect, St.call, St.countFailed, h, hh2]
      · rcases hrej with h | h <;> cases hh2 : w.headOk <;>
          simp [downloadDirect, St.call, St.countFailed, h, hh2]
      · rcases hrej with h | h <;> cases hh2 : w.headOk <;>
          simp [downloadDirect, St.call, St.countFailed, h, hh2]
      · rcases hrej with h | h <;> cases hh2 : w.headOk <;>
          simp [directCalls, h, hh2]

/-- The case of HTTP 404: the `HEAD` request for a direct `.mp4` link is rejected. -/
theorem failed_item_files_witness :
    ¬ DedupHit [] (lastSegment sampleUri) ∧
    ¬ HlsShaped "https://cdn.example.org/clip.mp4" ∧
    ∃ st1, processItem true true [] (sampleItem mp4Embed)
        { worldOk with headOk := false } St.init = .ok st1 ∧
      st1.failedCount = St.init.failedCount + 1 ∧
      st1.downloadedCount = St.init.downloadedCount ∧ st1.files = St.init.files :=
  have hnew : ¬ DedupHit [] (lastSegment sampleUri) := by simp [DedupHit]
  have hh : ¬ HlsShaped "https://cdn.example.org/clip.mp4" :=
    fun h => absurd ((isHls_iff _).2 h) (by decide)
  have h := failed_item_files true true [] (sampleItem mp4Embed)
    { uri := some sampleUri, embed := some mp4Embed } sampleUri
    { worldOk with headOk := false } St.init rfl rfl
  ⟨hnew, hh, h.elim fun st1 hst1 =>
    have h4 := hst1.2.2.2 "https://cdn.example.org/clip.mp4" hnew rfl (by decide) hh
      (Or.inl rfl)
    ⟨st1, hst1.1, h4.1, h4.2.1, h4.2.2.1⟩⟩

/-! ## C11: embeds without a type -/

theorem isVideoPost_unrecognized (item : FeedItem) (post : Post) (embed : Embed) (t : String)
    (hpost : item.post = some post) (hembed : post.embed = some embed)
    (htype : embed.type = some t) (h1 : cutType t ≠ "app.bsky.embed.video")
    (h2 : cutType t ≠ "app.bsky.embed.external")
    (h3 : cutType t ≠ "app.bsky.embed.recordWithMedia") :
    isVideoPost item = .ok false := by
  simp [isVideoPost, hpost, hembed, htype, h1, h2, h3]

/-- C11 at embeds without `$type`. An embed of an unknown type is dropped, but for an embed
object without `$type` field, and for a recordWithMedia embed whose media has none, the loop
body of `filterVideoPosts` raises a `TypeError`; the exception leaves `filterVideoPosts`, which
returns no list although the other two posts of the feed carry videos. -/
theorem filterVideoPosts_throws_without_type :
    isVideoPost (sampleItem imagesEmbed) = .ok false ∧
    isVideoPost (sampleItem untypedEmbed) = .error .typeError ∧
    isVideoPost (sampleItem untypedMediaEmbed) = .error .typeError ∧
    filterVideoPosts [sampleItem hlsEmbed, sampleItem untypedEmbed, sampleItem mp4Embed] =
      .error .typeError :=
  ⟨rfl, rfl, rfl, rfl⟩

/-! ## C12: the number of liked posts fetched -/

theorem getLikedPostsLoop_bound (api : Nat → Except JsError Page)
    (hpage : ∀ n page, api n = .ok page → page.feed.length ≤ 100) :
    ∀ fuel call acc l, acc.length < 500 →
      getLikedPostsLoop api fuel call acc = some (.ok l) → l.length ≤ 599 := by
  intro fuel
  induction fuel with
  | zero => intro call acc l _ h; simp [getLikedPostsLoop] at h
  | succ fuel ih =>
    intro call acc l hacc h
    rw [getLikedPostsLoop] at h
    cases hresp : api call with
    | error e => rw [hresp] at h; simp at h
    | ok response =>
      rw [hresp] at h
      have hlen := hpage call response hresp
      simp only at h
      split_ifs at h with hstop
      · simp only [Option.some.injEq, Except.ok.injEq] at h
        subst h
        simp only [List.length_append]
        omega
      · refine ih (call + 1) (acc ++ response.feed) l ?_ h
        simp only [not_or, not_le] at hstop
        exact hstop.2

theorem getLikedPostsLoop_full (api : Nat → Except JsError Page)
    (hfull : ∀ n page, api n = .ok page → truthyStr page.cursor = true →
      page.feed.length = 100)
    (hpage : ∀ n page, api n = .ok page → page.feed.length ≤ 100) :
    ∀ fuel call acc l, acc.length < 500 → 100 ∣ acc.length →
      getLikedPostsLoop api fuel call acc = some (.ok l) → l.length ≤ 500 := by
  intro fuel
  induction fuel with
  | zero => intro call acc l _ _ h; simp [getLikedPostsLoop] at h
  | succ fuel ih =>
    intro call acc l hacc hdvd h
    rw [getLikedPostsLoop] at h
    cases hresp : api call with
    | error e => rw [hresp] at h; simp at h
    | ok response =>
      rw [hresp] at h
      have hlen := hpage call response hresp
      simp only at h
      split_ifs at h with hstop
      · simp only [Option.some.injEq, Except.ok.injEq] at h
        subst h
        simp only [List.length_append]
        omega
      · simp only [not_or, not_le, Bool.not_eq_false] at hstop
        have h100 := hfull call response hresp hstop.1
        refine ih (call + 1) (acc ++ response.feed) l hstop.2 ?_ h
        simp only [List.length_append, h100]
        omega

theorem getLikedPostsLoop_returns (api : Nat → Except JsError Page) (k : Nat)
    (hlast : ∀ page, api k = .ok page → truthyStr page.cursor = false) :
    ∀ fuel call acc, call ≤ k → k < call + fuel →
      ∃ r, getLikedPostsLoop api fuel call acc = some r := by
  intro fuel
  induction fuel with
  | zero => intro call acc h1 h2; omega
  | succ fuel ih =>
    intro call acc h1 h2
    rw [getLikedPostsLoop]
    cases hresp : api call with
    | error e => exact ⟨_, rfl⟩
    | ok response =>
      simp only
      split_ifs with hstop
      · exact ⟨_, rfl⟩
      · have hne : call ≠ k := by
          rintro rfl
          exact hstop (Or.inl (hlast response hresp))
        exact ih (call + 1) _ (by omega) (by omega)

/-- C12, as stated, fails: when every page holds 99 posts and a cursor, five pages leave the
list at 495 posts, below the limit, and the sixth brings it to 594. -/
theorem getLikedPosts_over_500_counterexample :
    (∀ n page, pagesOf99 n = .ok page → page.feed.length ≤ 100) ∧
    fetchedCount (getLikedPosts pagesOf99 6) = some 594 := by
  constructor
  · intro n page h
    simp only [pagesOf99, Except.ok.injEq] at h
    subst h
    simp
  · simp [getLikedPosts, getLikedPostsLoop, pagesOf99, fetchedCount, truthyStr]

/-- C12, amended. When every page holds at most 100 posts, every list `getLikedPosts`
returns has at most 599 posts (fewer than 500 before its last page and at most 100 in it),
and at most 500 when every page that carries a cursor holds exactly 100 posts; and the
function returns as soon as a request is rejected or a page comes without a cursor. -/
theorem getLikedPosts_bound (api : Nat → Except JsError Page)
    (hpage : ∀ n page, api n = .ok page → page.feed.length ≤ 100) :
    (∀ fuel likedPosts, getLikedPosts api fuel = some (.ok likedPosts) →
      likedPosts.length ≤ 599) ∧
    ((∀ n page, api n = .ok page → truthyStr page.cursor = true → page.feed.length = 100) →
      ∀ fuel likedPosts, getLikedPosts api fuel = some (.ok likedPosts) →
        likedPosts.length ≤ 500) ∧
    (∀ k, (∀ page, api k = .ok page → truthyStr page.cursor = false) →
      ∃ r, getLikedPosts api (k + 1) = some r) := by
  refine ⟨?_, ?_, ?_⟩
  · intro fuel likedPosts h
    exact getLikedPostsLoop_bound api hpage fuel 0 [] likedPosts (by simp) h
  · intro hfull fuel likedPosts h
    exact getLikedPostsLoop_full api hfull hpage fuel 0 [] likedPosts (by simp) (by simp) h
  · intro k hlast
    exact getLikedPostsLoop_returns api k hlast (k + 1) 0 [] (by omega) (by omega)

/-- Instance of the amended C12: a page of 99 posts with a cursor, then one post without. -/
theorem getLikedPosts_bound_witness :
    (∀ n page, twoPages n = .ok page → page.feed.length ≤ 100) ∧
    (∀ fuel likedPosts, getLikedPosts twoPages fuel = some (.ok likedPosts) →
      likedPosts.length ≤ 599) ∧
    ∃ r, getLikedPosts twoPages 2 = some r :=
  have hpage : ∀ n page, twoPages n = .ok page → page.feed.length ≤ 100 := by
    intro n page h
    cases n with
    | zero =>
      simp only [twoPages, Except.ok.injEq] at h
      subst h
      simp
    | succ m =>
      simp only [twoPages, Except.ok.injEq] at h
      subst h
      simp
  have h := getLikedPosts_bound twoPages hpage
  ⟨hpage, h.1, h.2.2 1 (by
    intro page hp
    simp only [twoPages, Except.ok.injEq] at hp
    subst hp
    rfl)⟩

end BskyDownloader
